import Mathlib

/-!
Verification development for the flux plugin (`plugin.py`): a shallow
embedding of the command router, pipe transport, image normalizer,
generation handler, ComfyUI execution monitor and workflow patching,
together with theorems about the specified behaviours.

Conventions of the embedding:
* JSON values decoded by `json.loads` are modelled by the inductive `Json`.
* Python runtime exceptions (KeyError, TypeError, AttributeError, ...) are
  modelled by `Except Unit`; `.error ()` means "this statement raises".
* Library calls (UTF-8 decoding, `json.loads`, HTTP fetches, the websocket
  event stream) are modelled as explicit parameters/oracles so that each
  theorem quantifies over the environment.
-/

/-- A decoded JSON value (`json.loads` result).  Python dicts keep insertion
order, hence association lists. -/
inductive Json where
  | null
  | bool (b : Bool)
  | num (n : Int)
  | str (s : String)
  | arr (elems : List Json)
  | obj (fields : List (String × Json))
deriving Repr, Inhabited

/-- First binding of key `k` in an object; `none` for non-objects or a
missing key. -/
def Json.lookupKey : Json → String → Option Json
  | .obj kvs, k => kvs.lookup k
  | _, _ => none

/-- Python `k in j` for a string `k`: key membership for dicts, substring
test for strings, element membership for lists, `TypeError` otherwise. -/
def pyIn (k : String) : Json → Except Unit Bool
  | .obj kvs => .ok ((kvs.lookup k).isSome)
  | .str s => .ok (decide (k.toList <:+: s.toList))
  | .arr xs => .ok (xs.any fun x => match x with | .str s => s = k | _ => false)
  | _ => .error ()

/-- Python `j[k]` for a string key: raises (`KeyError`/`TypeError`) unless
`j` is a dict containing `k`. -/
def pyIndex (j : Json) (k : String) : Except Unit Json :=
  match j with
  | .obj kvs =>
    match kvs.lookup k with
    | some v => .ok v
    | none => .error ()
  | _ => .error ()

/-- Python `j.get(k, d)`: raises `AttributeError` unless `j` is a dict. -/
def pyGetD (j : Json) (k : String) (d : Json) : Except Unit Json :=
  match j with
  | .obj kvs => .ok ((kvs.lookup k).getD d)
  | _ => .error ()

/-- Python iteration `for x in j`: list elements, string characters,
dict keys; raises `TypeError` otherwise. -/
def pyIter : Json → Except Unit (List Json)
  | .arr xs => .ok xs
  | .str s => .ok (s.toList.map fun c => .str (String.mk [c]))
  | .obj kvs => .ok (kvs.map fun kv => .str kv.1)
  | _ => .error ()

/-- Python `str(...)` on a decoded JSON value (used by f-strings).  The
container cases use a simplified rendering; the plugin only ever
stringifies scalars. -/
def pyStr : Json → String
  | .null => "None"
  | .bool b => if b then "True" else "False"
  | .num n => toString n
  | .str s => s
  | .arr _ => "[...]"
  | .obj _ => "\x7b...\x7d"

/-- The response envelope every handler returns: `success` plus an optional
`message` / `status` key. -/
structure Response where
  success : Bool
  message : Option String := none
  status : Option String := none
deriving Repr, DecidableEq, Inhabited

/-- `generate_failure_response` (plugin.py:429): `{success: False}` with a
`message` key added only when the argument string is truthy. -/
def generate_failure_response (message : Option String) : Response :=
  { success := false
    message := match message with
      | some s => if s = "" then none else some s
      | none => none }

/-- `generate_success_response` (plugin.py:444): `{success: True}` with a
`message` key added only when the argument string is truthy. -/
def generate_success_response (message : Option String) : Response :=
  { success := true
    message := match message with
      | some s => if s = "" then none else some s
      | none => none }

/-- Truthiness of the optional configuration strings loaded from
`config.json` (`None` and `""` are falsy). -/
def truthyOpt : Option String → Bool
  | none => false
  | some s => s ≠ ""

/-- `execute_initialize_command` (plugin.py:499).  `dirOk` is the outcome of
`validate_output_directory()` (a filesystem probe, modelled as an input);
`gallery` is the `GALLERY_DIRECTORY` configuration value.  Validation
problems end up as warning text inside a success message. -/
def execute_initialize_command (dirOk : Bool) (gallery : Option String) : Response :=
  let validationResults : List String :=
    (if dirOk then [] else ["OUTPUT_DIRECTORY configuration is invalid"]) ++
    (if truthyOpt gallery then [] else ["GALLERY_DIRECTORY not configured"])
  if validationResults = [] then
    generate_success_response (some "initialize success.")
  else
    generate_success_response
      (some ("initialize success. Plugin initialized with warnings: " ++
        String.intercalate "; " validationResults))

/-- `execute_shutdown_command` (plugin.py:534). -/
def execute_shutdown_command : Response :=
  generate_success_response (some "shutdown success.")

/-- The keys of the `commands` dict in `main` (plugin.py:284-303). -/
def commandNames : List String :=
  ["initialize", "shutdown", "flux_nim_ready_check", "check_nim_status",
   "stop_nim", "start_nim", "generate_image", "generate_image_using_kontext",
   "invokeai_status", "pause_invokeai_processor", "resume_invokeai_processor",
   "invokeai_empty_model_cache", "flux_kontext_nim_ready_check",
   "check_flux_kontext_nim_status", "stop_flux_kontext_nim",
   "start_flux_kontext_nim", "comfyui_status", "comfyui_free_memory"]

/-- Handler oracle: behaviour of the non-`initialize`/`shutdown` handlers,
as a function of command name, `params`, `context` and `system_info`.
The router theorems hold for every such behaviour. -/
abbrev HandlerFun := String → Option Json → Option Json → Option Json → Response

/-- An argument Python would receive as `None` (either the key was absent or
its value was JSON `null`). -/
def optArg : Option Json → Option Json
  | some .null => none
  | some v => some v
  | none => none

/-- One iteration of the `for tool_call in tool_calls` body in `main`
(plugin.py:318-349): produces the response assigned in that iteration and
the updated `cmd` variable; `.error ()` models an uncaught exception
(`main` has no handler, the process dies). -/
def processToolCall (rh : HandlerFun) (dirOk : Bool) (gallery : Option String)
    (ctx si : Option Json) (tc : Json) (cmd : Json) : Except Unit (Response × Json) :=
  match pyIn "func" tc with
  | .error _ => .error ()
  | .ok false =>
    .ok (generate_failure_response (some "Plugin Error! Malformed input."), cmd)
  | .ok true =>
    match pyIndex tc "func" with
    | .error _ => .error ()
    | .ok cmdv =>
      match cmdv with
      | .arr _ => .error ()   -- unhashable key in `cmd in commands`
      | .obj _ => .error ()
      | .str s =>
        if commandNames.contains s then
          if s = "initialize" then .ok (execute_initialize_command dirOk gallery, cmdv)
          else if s = "shutdown" then .ok (execute_shutdown_command, cmdv)
          else
            -- the initialize handler re-runs, its response is overwritten
            let _ := execute_initialize_command dirOk gallery
            .ok (rh s (optArg (tc.lookupKey "params")) ctx si, cmdv)
        else
          .ok (generate_failure_response
            (some ("Plugin Error! Unknown command: " ++ s)), cmdv)
      | _ =>
        .ok (generate_failure_response
          (some ("Plugin Error! Unknown command: " ++ pyStr cmdv)), cmdv)

/-- The fold of `processToolCall` over the tool calls of one frame;
the response is overwritten on every iteration. -/
def processToolCalls (rh : HandlerFun) (dirOk : Bool) (gallery : Option String)
    (ctx si : Option Json) : List Json → Option Response × Json →
    Except Unit (Option Response × Json)
  | [], st => .ok st
  | tc :: rest, st =>
    match processToolCall rh dirOk gallery ctx si tc st.2 with
    | .error _ => .error ()
    | .ok (r, c) => processToolCalls rh dirOk gallery ctx si rest (some r, c)

/-- Processing of one received frame in `main` (plugin.py:316-352): yields
the `response` that `write_response` is then called with, together with the
final `cmd`; `.error ()` models an exception escaping `main`. -/
def processFrame (rh : HandlerFun) (dirOk : Bool) (gallery : Option String)
    (input : Json) (cmd : Json) : Except Unit (Option Response × Json) :=
  match pyIn "tool_calls" input with
  | .error _ => .error ()
  | .ok false =>
    .ok (some (generate_failure_response (some "Plugin Error! Malformed input.")), cmd)
  | .ok true =>
    match pyIndex input "tool_calls" with
    | .error _ => .error ()
    | .ok tcs =>
      match pyIter tcs with
      | .error _ => .error ()
      | .ok calls =>
        let ctx := optArg (input.lookupKey "messages")
        let si := optArg (input.lookupKey "system_info")
        processToolCalls rh dirOk gallery ctx si calls (none, cmd)

/-- Minimal `json.dumps` for the values `write_response` serializes: either
a handler `Response` dict or Python `None`. -/
def dumpsResponse : Option Response → String
  | none => "null"
  | some r =>
    "\x7b\"success\": " ++ (if r.success then "true" else "false") ++
    (match r.message with
      | some m => ", \"message\": \"" ++ m ++ "\""
      | none => "") ++
    (match r.status with
      | some st => ", \"status\": \"" ++ st ++ "\""
      | none => "") ++ "\x7d"

/-- `write_response` (plugin.py:407): the byte string written to the output
pipe — the JSON serialization followed by the literal `<<END>>` sentinel. -/
def write_response (response : Option Response) : String :=
  dumpsResponse response ++ "<<END>>"

/-! ### Pipe transport: `read_command` (plugin.py:365-404) -/

/-- One `ReadFile` call on the input pipe: either the call failed, or it
filled `data.length` bytes of the 4096-byte buffer. -/
inductive ReadOutcome where
  | err
  | ok (data : List Nat)
deriving Repr, Inhabited

/-- The chunked read loop of `read_command`.  `decodeChunk` models
`buffer.decode("utf-8")[:message_bytes.value]` (with `none` for a
`UnicodeDecodeError`), `parse` models `json.loads` (with `none` for a
`JSONDecodeError`); both are library calls kept as parameters.  Every
chunk is decoded and accumulated into `chunks`, but after the first short
chunk ends the loop, only the final chunk is parsed; an exhausted outcome
list models a read that never returns. -/
def readCommandLoop (decodeChunk : List Nat → Option String)
    (parse : String → Option Json) :
    List ReadOutcome → List String → Option Json
  | [], _ => none
  | .err :: _, _ => none
  | .ok data :: rest, chunks =>
    match decodeChunk data with
    | none => none
    | some chunk =>
      if data.length < 4096 then parse chunk
      else readCommandLoop decodeChunk parse rest (chunks ++ [chunk])

/-- `read_command`: run the chunked read loop with an empty accumulator. -/
def read_command (decodeChunk : List Nat → Option String)
    (parse : String → Option Json) (reads : List ReadOutcome) : Option Json :=
  readCommandLoop decodeChunk parse reads []

/-! ### Image normalizer: `prepare_image_for_kontext` (plugin.py:108-166)
and `prepare_image_for_comfyui` (plugin.py:169-227).

Both functions share the same geometry: scale-to-cover then center-crop.
PIL's `resize` returns exactly the requested size and `crop` returns an
image of exactly the box size, so the geometry below determines the output
dimensions; the PNG/base64/tempfile encodings are not modelled.  Python
floats are modelled as exact rationals and `int(...)` as truncation toward
zero. -/

/-- Python `int(x)` for a non-negative real-valued `x` (truncation toward
zero; all scale computations in the normalizer are positive). -/
def pyTruncQ (q : ℚ) : ℤ := q.num.tdiv (q.den : ℤ)

/-- The crop rectangle handed to `Image.crop` plus the resized dimensions. -/
structure CropGeometry where
  newWidth : ℤ
  newHeight : ℤ
  left : ℤ
  top : ℤ
  right : ℤ
  bottom : ℤ
deriving Repr

/-- Floor of the base-2 logarithm, with explicit structural fuel so the
kernel can evaluate it on concrete inputs. -/
def log2Fuel : Nat → Nat → Nat
  | 0, _ => 0
  | fuel + 1, n => if 2 ≤ n then log2Fuel fuel (n / 2) + 1 else 0

/-- A non-negative IEEE-754 binary64 value `n * 2^(e - 52)`, with the
significand normalized to `2^52 ≤ n < 2^53` for non-zero values.  The
model covers the normal range (no overflow, subnormals or NaN), which
contains every value the normalizer's size arithmetic produces for
realistic image dimensions. -/
structure FVal where
  n : Nat
  e : Int
deriving Repr, DecidableEq

/-- Round the positive rational `num / den` to the nearest binary64 value,
ties to even — the IEEE-754 result of dividing the two exactly-converted
integers (CPython's int/int true division is correctly rounded). -/
def roundRatToFVal (num den : Nat) : FVal :=
  let e : Int := (log2Fuel 400 (num * 2 ^ 120 / den) : Int) - 120
  let s : Int := 52 - e
  let A : Nat := if 0 ≤ s then num * 2 ^ s.toNat else num
  let B : Nat := if 0 ≤ s then den else den * 2 ^ (-s).toNat
  let q := A / B
  let r := A % B
  let n := if 2 * r < B then q
    else if B < 2 * r then q + 1
    else if q % 2 = 0 then q else q + 1
  if n = 2 ^ 53 then ⟨2 ^ 52, e + 1⟩ else ⟨n, e⟩

/-- Value-order comparison of normalized non-negative doubles. -/
def FVal.blt (x y : FVal) : Bool := x.e < y.e || (x.e = y.e && x.n < y.n)

/-- Python `max` on two doubles. -/
def FVal.fmax (x y : FVal) : FVal := if FVal.blt x y then y else x

/-- Python `int * float`: the integer converts to a double exactly (image
dimensions are far below 2^53), so the result is the exact product rounded
once. -/
def FVal.mulNat (a : Nat) (x : FVal) : FVal :=
  if 52 ≤ x.e then roundRatToFVal (a * x.n * 2 ^ (x.e - 52).toNat) 1
  else roundRatToFVal (a * x.n) (2 ^ ((52 : Int) - x.e).toNat)

/-- Python `int(...)` truncation of a non-negative double. -/
def FVal.toTruncNat (x : FVal) : Nat :=
  if 52 ≤ x.e then x.n * 2 ^ (x.e - 52).toNat
  else x.n / 2 ^ ((52 : Int) - x.e).toNat

/-- The arithmetic shared by both normalizer functions
(plugin.py:129-146 and 191-208), under the source's IEEE-754 double
semantics: `scale = max(tw/sw, th/sh)` (two correctly-rounded float
divisions), `int(dim * scale)` (correctly-rounded product, truncated),
then the integer center-crop with `//` (floor division) and clamping of
the crop origins to `0`.  When a truncated dimension is `0`, PIL's
`resize` raises and the source function returns `None` instead of an
image; the geometry below is what the code computes before that call. -/
def kontextCropGeometry (srcW srcH targetW targetH : ℕ) : CropGeometry :=
  let scale : FVal := FVal.fmax (roundRatToFVal targetW srcW) (roundRatToFVal targetH srcH)
  let newWidth : ℤ := ((FVal.mulNat srcW scale).toTruncNat : ℤ)
  let newHeight : ℤ := ((FVal.mulNat srcH scale).toTruncNat : ℤ)
  let left : ℤ := max 0 (Int.fdiv (newWidth - (targetW : ℤ)) 2)
  let top : ℤ := max 0 (Int.fdiv (newHeight - (targetH : ℤ)) 2)
  let right : ℤ := min newWidth (left + (targetW : ℤ))
  let bottom : ℤ := min newHeight (top + (targetH : ℤ))
  ⟨newWidth, newHeight, left, top, right, bottom⟩

/-- `prepare_image_for_kontext`: geometry of the data-URI producing
normalizer (defaults 1392x752). -/
def prepare_image_for_kontext (srcW srcH : ℕ)
    (targetW : ℕ := 1392) (targetH : ℕ := 752) : CropGeometry :=
  kontextCropGeometry srcW srcH targetW targetH

/-- `prepare_image_for_comfyui`: geometry of the tempfile-producing
normalizer (defaults 1392x752); the crop arithmetic is identical, the two
source functions differ only in how the cropped image is emitted. -/
def prepare_image_for_comfyui (srcW srcH : ℕ)
    (targetW : ℕ := 1392) (targetH : ℕ := 752) : CropGeometry :=
  kontextCropGeometry srcW srcH targetW targetH

/-! ### Generation handler: `generate_image_using_kontext`
(plugin.py:2017-2170) -/

/-- A Python value appearing in the `params` mapping of a tool call. -/
inductive PyVal where
  | vnone
  | vint (n : ℤ)
  | vfloat (q : ℚ)
  | vstr (s : String)
  | vbool (b : Bool)
  | vlist
  | vdict
deriving Repr, Inhabited

/-- Python `int(x)`: `none` models the `ValueError`/`TypeError` caught at
plugin.py:2057.  Floats truncate toward zero; strings parse as an optional
sign followed by digits (surrounding whitespace stripped); `None`, lists
and dicts raise. -/
def pyToInt : PyVal → Option ℤ
  | .vint n => some n
  | .vbool b => some (if b then 1 else 0)
  | .vfloat q => some (pyTruncQ q)
  | .vstr s =>
    let t := s.trim
    let (sign, digits) :=
      if t.startsWith "-" then ((-1 : ℤ), t.drop 1)
      else if t.startsWith "+" then ((1 : ℤ), t.drop 1)
      else ((1 : ℤ), t)
    if digits ≠ "" ∧ digits.all Char.isDigit then
      some (sign * (digits.toNat! : ℤ))
    else none
  | _ => none

/-- Python truthiness of a parameter value (used by `if prompt:`). -/
def pyTruthy : PyVal → Bool
  | .vnone => false
  | .vint n => n ≠ 0
  | .vfloat q => q ≠ 0
  | .vstr s => s ≠ ""
  | .vbool b => b
  | .vlist => true
  | .vdict => true

/-- Python `str(x)` for parameter values interpolated into f-strings. -/
def pyValStr : PyVal → String
  | .vnone => "None"
  | .vint n => toString n
  | .vfloat q => toString q
  | .vstr s => s
  | .vbool b => if b then "True" else "False"
  | .vlist => "[...]"
  | .vdict => "\x7b...\x7d"

/-- Python `str.upper()` (the backend selector values are ASCII). -/
def pyUpper (s : String) : String := String.mk (s.data.map Char.toUpper)

/-- The configuration globals reloaded by `load_config()` that
`generate_image_using_kontext` reads. -/
structure KontextConfig where
  galleryDirectory : Option String
  fluxKontextNimUrl : Option String
  invokeaiUrl : Option String
  comfyuiUrl : Option String
  inferenceBackend : String
  boardId : Option String
deriving Repr, Inhabited

/-- Observable side effects of the synchronous part of the handler.  The
handler itself performs no HTTP call; network traffic happens only inside
the spawned worker. -/
inductive KontextEffect where
  | startThread (worker : String)
  | netCall (url : String)
deriving Repr, DecidableEq

/-- `generate_image_using_kontext` (plugin.py:2017-2170): the synchronous
validation and backend dispatch.  Returns the response envelope and the
list of effects performed before returning (`startThread` marks
`thread.start()`).  `params = none` models a `None` params argument. -/
def generate_image_using_kontext (cfg : KontextConfig)
    (params : Option (List (String × PyVal))) : Response × List KontextEffect :=
  if ¬ truthyOpt cfg.galleryDirectory then
    (generate_failure_response (some
      "GALLERY_DIRECTORY not configured. Please set GALLERY_DIRECTORY in config.json"),
     [])
  else
    let gallery := cfg.galleryDirectory.getD ""
    let prompt : PyVal := match params with
      | some p => (p.lookup "prompt").getD (.vstr "")
      | none => .vstr ""
    let stepsRaw : PyVal := match params with
      | some p => (p.lookup "steps").getD (.vint 30)
      | none => .vint 30
    match pyToInt stepsRaw with
    | none =>
      (generate_failure_response (some "Steps parameter must be an integer"), [])
    | some steps =>
      if steps < 20 ∨ 50 < steps then
        (generate_failure_response (some "Steps parameter must be between 20 and 50"), [])
      else
        let backend := pyUpper cfg.inferenceBackend
        if backend = "NIM" then
          if ¬ truthyOpt cfg.fluxKontextNimUrl then
            (generate_failure_response (some
              ("FLUX_KONTEXT_INFERENCE_BACKEND is set to \x27NIM\x27 but " ++
               "FLUX_KONTEXT_NIM_URL is not configured. " ++
               "Please set FLUX_KONTEXT_NIM_URL in config.json")), [])
          else
            (generate_success_response (some
              (if pyTruthy prompt then
                "Your Flux Kontext NIM generation request is in progress! " ++
                "Using screenshot from: " ++ gallery ++ " with prompt: \"" ++
                pyValStr prompt ++ "\""
              else
                "Your Flux Kontext NIM generation request is in progress! " ++
                "Using screenshot from: " ++ gallery)),
             [.startThread "generate_image_using_kontext_nim_worker"])
        else if backend = "INVOKEAI" then
          if ¬ truthyOpt cfg.invokeaiUrl then
            (generate_failure_response (some
              ("FLUX_KONTEXT_INFERENCE_BACKEND is set to \x27INVOKEAI\x27 but " ++
               "INVOKEAI_URL is not configured. " ++
               "Please set INVOKEAI_URL in config.json")), [])
          else
            (generate_success_response (some
              (if pyTruthy prompt then
                "Your InvokeAI Flux Kontext generation request is in progress! " ++
                "Using screenshot from: " ++ gallery ++ " with prompt: \"" ++
                pyValStr prompt ++ "\""
              else
                "Your InvokeAI Flux Kontext generation request is in progress! " ++
                "Using screenshot from: " ++ gallery)),
             [.startThread "generate_image_using_kontext_worker"])
        else if backend = "COMFYUI" then
          if ¬ truthyOpt cfg.comfyuiUrl then
            (generate_failure_response (some
              ("FLUX_KONTEXT_INFERENCE_BACKEND is set to \x27COMFYUI\x27 but " ++
               "COMFYUI_URL is not configured. " ++
               "Please set COMFYUI_URL in config.json")), [])
          else
            (generate_success_response (some
              (if pyTruthy prompt then
                "Your ComfyUI Flux Kontext generation request is in progress! " ++
                "Using screenshot from: " ++ gallery ++ " with prompt: \"" ++
                pyValStr prompt ++ "\""
              else
                "Your ComfyUI Flux Kontext generation request is in progress! " ++
                "Using screenshot from: " ++ gallery)),
             [.startThread "generate_image_using_comfyui_worker"])
        else
          (generate_failure_response (some
            ("Invalid FLUX_KONTEXT_INFERENCE_BACKEND value: \x27" ++
             cfg.inferenceBackend ++
             "\x27. Must be one of: NIM, INVOKEAI, COMFYUI")), [])

/-! ### Execution monitor: `execute_comfyui_workflow` (plugin.py:2762-3012)

The model starts from the point where the queue POST has returned and a
correlation id (`prompt_id`) is at hand; the websocket event stream, the
history endpoint and the per-image fetches are oracles supplied in a
`ComfyEnv`.  The pre-connect status probe (plugin.py:2809-2832) only logs
and is not modelled. -/

/-- One outcome of `ws.recv()` in the monitoring loop. -/
inductive WsEvent where
  | textInvalid            -- a string frame whose JSON decode fails → continue
  | text (j : Json)        -- a string frame decoded to `j`
  | binary (b : List Nat)  -- a binary frame (raw image bytes)
  | wsTimeout              -- WebSocketTimeoutException → continue
  | recvError              -- any other receive error → continue
deriving Repr, Inhabited

/-- Processing of one decoded text message (plugin.py:2864-2899).
`.ok true` means the `workflow_completed = True; break` path was taken;
`.ok false` means the loop continues; `.error ()` means a field access
raised (only `json.JSONDecodeError` is caught there), which escapes the
loop and the whole function. -/
def monitorTextStep (promptId : String) (j : Json) : Except Unit Bool := do
  let t ← pyIndex j "type"
  match t with
  | .str "executing" =>
    let d ← pyIndex j "data"
    let hasPid ← pyIn "prompt_id" d
    if hasPid then
      let pid ← pyIndex d "prompt_id"
      match pid with
      | .str p =>
        if p = promptId then
          let node ← pyIndex d "node"
          match node with
          | .null => pure true
          | _ => pure false
        else pure false
      | _ => pure false
    else pure false
  | .str "executed" =>
    let d ← pyIndex j "data"
    let hasNode ← pyIn "node" d
    if hasNode then
      let nodeId ← pyIndex d "node"
      match nodeId with
      | .str "1" =>
        let hasOut ← pyIn "output" d
        if hasOut then
          let out ← pyIndex d "output"
          let hasImgs ← pyIn "images" out
          if hasImgs then pure true else pure false
        else pure false
      | _ => pure false
    else pure false
  | _ => pure false

/-- Result of the websocket monitoring loop: `finished completed imgs`
(where `imgs = some xs` iff binary frames created the `"1"` entry of
`output_images`), or `raised` when a message field access escaped. -/
inductive MonitorOutcome where
  | finished (completed : Bool) (images : Option (List (List Nat)))
  | raised
deriving Repr, Inhabited

/-- The monitoring loop (plugin.py:2844-2915).  Exhaustion of the event
list models the 300 s wall-clock deadline elapsing (every further receive
times out), which leaves the loop with `workflow_completed = False`. -/
def monitorLoop (promptId : String) :
    List WsEvent → Option (List (List Nat)) → MonitorOutcome
  | [], imgs => .finished false imgs
  | e :: rest, imgs =>
    match e with
    | .wsTimeout => monitorLoop promptId rest imgs
    | .recvError => monitorLoop promptId rest imgs
    | .textInvalid => monitorLoop promptId rest imgs
    | .text j =>
      match monitorTextStep promptId j with
      | .error _ => .raised
      | .ok true => .finished true imgs
      | .ok false => monitorLoop promptId rest imgs
    | .binary b => monitorLoop promptId rest (some (imgs.getD [] ++ [b]))

/-- Outcome of `requests.get(comfyui_url + "/history")`. -/
inductive HistoryOutcome where
  | raises                                  -- connection error etc.
  | respInvalidJson (status : Nat)          -- response whose .json() raises
  | resp (status : Nat) (body : Json)
deriving Repr, Inhabited

/-- Outcome of one `requests.get(image_url)` in the fallback download loop. -/
inductive FetchOutcome where
  | raises
  | resp (status : Nat) (content : List Nat)
deriving Repr, Inhabited

/-- The deterministic retrieval URL built for one image descriptor
(plugin.py:2957). -/
def comfyViewUrl (comfyuiUrl : String) (filename subfolder : Json) : String :=
  comfyuiUrl ++ "/view?filename=" ++ pyStr filename ++
    "&type=output&subfolder=" ++ pyStr subfolder

/-- The fallback download loop over the recorded image descriptors
(plugin.py:2956-2971).  A non-200 status skips that image; an exception
(`.raises`, or a raising descriptor access) aborts the remaining items but
keeps the images already appended, mirroring the enclosing
`except Exception` handler. -/
def fallbackDownloadLoop (comfyuiUrl : String) (fetch : String → FetchOutcome) :
    List Json → List (List Nat) → List (List Nat)
  | [], acc => acc
  | d :: rest, acc =>
    match pyIndex d "filename" with
    | .error _ => acc
    | .ok fn =>
      match pyGetD d "subfolder" (.str "") with
      | .error _ => acc
      | .ok sub =>
        match fetch (comfyViewUrl comfyuiUrl fn sub) with
        | .raises => acc
        | .resp 200 content => fallbackDownloadLoop comfyuiUrl fetch rest (acc ++ [content])
        | .resp _ _ => fallbackDownloadLoop comfyuiUrl fetch rest acc

/-- The history fallback poll (plugin.py:2933-2977), entered only when no
binary frame arrived over the stream.  Returns the final `output_images`
entry for node `"1"`: `none` when nothing ever created it, `some xs`
otherwise (note `some []` when descriptors were found but no download
succeeded).  All raising paths are absorbed by the enclosing
`except Exception` handler. -/
def historyFallbackPoll (comfyuiUrl promptId : String)
    (history : HistoryOutcome) (fetch : String → FetchOutcome) :
    Option (List (List Nat)) :=
  match history with
  | .raises => none
  | .respInvalidJson _ => none
  | .resp status body =>
    if status = 200 then
      match pyIn promptId body with
      | .error _ => none
      | .ok false => none
      | .ok true =>
        match pyIndex body promptId with
        | .error _ => none
        | .ok workflowHistory =>
          match pyGetD workflowHistory "outputs" (.obj []) with
          | .error _ => none
          | .ok outputs =>
            match pyIn "1" outputs with
            | .error _ => none
            | .ok false => none
            | .ok true =>
              -- save_image_output = workflow_history["outputs"]["1"]
              match pyIndex workflowHistory "outputs" with
              | .error _ => none
              | .ok outputs2 =>
                match pyIndex outputs2 "1" with
                | .error _ => none
                | .ok saveImageOutput =>
                  match pyIn "images" saveImageOutput with
                  | .error _ => none
                  | .ok false => none
                  | .ok true =>
                    match pyIndex saveImageOutput "images" with
                    | .error _ => none
                    | .ok imagesJson =>
                      -- output_images["1"] = [] happens before the loop
                      match pyIter imagesJson with
                      | .error _ => some []
                      | .ok descs =>
                        some (fallbackDownloadLoop comfyuiUrl fetch descs [])
    else none

/-- The environment one streaming-backend session runs against. -/
structure ComfyEnv where
  queueResult : Option String        -- prompt_id from the queue POST, if any
  connectOk : Bool                   -- whether `ws.connect` succeeds
  events : List WsEvent
  history : HistoryOutcome
  fetch : String → FetchOutcome

/-- Result of `execute_comfyui_workflow`: `failure` models returning
`None`; `images xs` models returning the `output_images` dict whose `"1"`
entry is `xs` (possibly empty). -/
inductive WorkflowResult where
  | failure
  | images (imgs : List (List Nat))
deriving Repr

/-- `execute_comfyui_workflow` (plugin.py:2762-3012) from the point the
queue call produced its result.  The second component counts history
fallback poll attempts.  A failed connect or a raising message access hits
the outer exception handlers and returns `None` (`failure`) directly; the
fallback poll runs exactly when the monitoring loop finished and no binary
frame created the `output_images` entry; the final result is the dict if
it is non-empty (even with an empty image list) and `None` otherwise. -/
def execute_comfyui_workflow (comfyuiUrl : String) (env : ComfyEnv) :
    WorkflowResult × Nat :=
  match env.queueResult with
  | none => (.failure, 0)
  | some promptId =>
    if ¬ env.connectOk then (.failure, 0)
    else
      match monitorLoop promptId env.events none with
      | .raised => (.failure, 0)
      | .finished _ imgs =>
        match imgs with
        | some xs => (.images xs, 0)
        | none =>
          match historyFallbackPoll comfyuiUrl promptId env.history env.fetch with
          | some xs => (.images xs, 1)
          | none => (.failure, 1)

/-! ### Workflow patching: `modify_workflow_for_kontext` (plugin.py:1704-1738)
and `modify_comfyui_workflow_for_kontext` (plugin.py:2668-2759).

Python object identity and in-place dict mutation matter here (the claim is
that the module-level template object is never mutated), so dicts live in an
explicit heap of addresses.  `copy.deepcopy` allocates fresh addresses;
field assignment mutates one heap cell.  Lists inside the workflows are
modelled as immutable inline values — neither function ever mutates a list,
so sharing them is observationally equivalent. -/

/-- A Python value stored in a workflow dict: scalars and lists inline,
nested dicts by reference. -/
inductive HVal where
  | vstr (s : String)
  | vint (n : ℤ)
  | vfloat (q : ℚ)
  | vnull
  | vref (a : Nat)
  | vlist (xs : List HVal)
deriving Repr, Inhabited

/-- Heap dict contents: an insertion-ordered association list. -/
abbrev HDict := List (String × HVal)

/-- Replace the binding of `k` (keeping its position) or append it, as
Python dict assignment does. -/
def setKey : HDict → String → HVal → HDict
  | [], k, v => [(k, v)]
  | (k', v') :: rest, k, v =>
    if k' = k then (k, v) :: rest else (k', v') :: setKey rest k v

/-- The heap: allocated dicts and the next fresh address. -/
structure Heap where
  mem : List (Nat × HDict)
  next : Nat
deriving Repr, Inhabited

/-- Contents of the dict at address `a`, if allocated. -/
def Heap.lookup (h : Heap) (a : Nat) : Option HDict :=
  (h.mem.find? (fun p => p.1 = a)).map (·.2)

/-- Allocate a fresh dict, returning its address. -/
def Heap.alloc (h : Heap) (d : HDict) : Nat × Heap :=
  (h.next, ⟨(h.next, d) :: h.mem, h.next + 1⟩)

/-- In-place assignment `heap[a][k] = v` (a no-op on a dangling address). -/
def Heap.setField (h : Heap) (a : Nat) (k : String) (v : HVal) : Heap :=
  { h with mem := h.mem.map fun p => if p.1 = a then (p.1, setKey p.2 k v) else p }

/-- Well-formedness: every allocated address is below `next`. -/
def Heap.WF (h : Heap) : Prop := ∀ p ∈ h.mem, p.1 < h.next

mutual

/-- `copy.deepcopy` of a single value, with a recursion-depth fuel (the
templates are finite trees, so any sufficiently large fuel succeeds). -/
def deepcopyVal : Nat → Heap → HVal → Option (HVal × Heap)
  | 0, _, _ => none
  | fuel + 1, h, v =>
    match v with
    | .vref a =>
      match h.lookup a with
      | none => none
      | some d =>
        match deepcopyDict fuel h d with
        | none => none
        | some (d', h') =>
          let (a', h'') := h'.alloc d'
          some (.vref a', h'')
    | .vlist xs =>
      match deepcopyList fuel h xs with
      | none => none
      | some (xs', h') => some (.vlist xs', h')
    | other => some (other, h)

/-- `copy.deepcopy` of a list of values. -/
def deepcopyList : Nat → Heap → List HVal → Option (List HVal × Heap)
  | 0, _, _ => none
  | _ + 1, h, [] => some ([], h)
  | fuel + 1, h, v :: rest =>
    match deepcopyVal fuel h v with
    | none => none
    | some (v', h') =>
      match deepcopyList fuel h' rest with
      | none => none
      | some (rest', h'') => some (v' :: rest', h'')

/-- `copy.deepcopy` of a dict's bindings. -/
def deepcopyDict : Nat → Heap → HDict → Option (HDict × Heap)
  | 0, _, _ => none
  | _ + 1, h, [] => some ([], h)
  | fuel + 1, h, (k, v) :: rest =>
    match deepcopyVal fuel h v with
    | none => none
    | some (v', h') =>
      match deepcopyDict fuel h' rest with
      | none => none
      | some (rest', h'') => some ((k, v') :: rest', h'')

end

/-- Python `v[k]` inside the heap model: only a dict reference with the key
present succeeds; anything else raises (`KeyError`/`TypeError`). -/
def hIndex (h : Heap) (v : HVal) (k : String) : Except Unit HVal :=
  match v with
  | .vref a =>
    match h.lookup a with
    | some d =>
      match d.lookup k with
      | some w => .ok w
      | none => .error ()
    | none => .error ()
  | _ => .error ()

/-- Python `k in v` inside the heap model. -/
def hIn (h : Heap) (k : String) (v : HVal) : Except Unit Bool :=
  match v with
  | .vref a =>
    match h.lookup a with
    | some d => .ok ((d.lookup k).isSome)
    | none => .error ()
  | .vstr s => .ok (decide (k.toList <:+: s.toList))
  | .vlist xs => .ok (xs.any fun x => match x with | .vstr s => s = k | _ => false)
  | _ => .error ()

/-- Python `v.get(k, d0)` inside the heap model (`AttributeError` unless a
dict reference). -/
def hGetD (h : Heap) (v : HVal) (k : String) (d0 : HVal) : Except Unit HVal :=
  match v with
  | .vref a =>
    match h.lookup a with
    | some d => .ok ((d.lookup k).getD d0)
    | none => .error ()
  | _ => .error ()

/-- Python `v[k] = w` inside the heap model: in-place mutation of the
referenced dict; raises (`TypeError`) on anything but a dict reference. -/
def hSet (h : Heap) (v : HVal) (k : String) (w : HVal) : Except Unit Heap :=
  match v with
  | .vref a =>
    match h.lookup a with
    | some _ => .ok (h.setField a k w)
    | none => .error ()
  | _ => .error ()

/-- The `for node_id, node_data in modified_workflow.items()` scan of
`modify_comfyui_workflow_for_kontext` (plugin.py:2702-2708): records the
last node whose `class_type` is `NIMFLUXNode` resp. `LoadImage`; a
`node_data.get` on a non-dict raises. -/
def findNodesByClassType (h : Heap) :
    HDict → Option String → Option String → Except Unit (Option String × Option String)
  | [], nim, li => .ok (nim, li)
  | (nodeId, v) :: rest, nim, li =>
    match hGetD h v "class_type" .vnull with
    | .error _ => .error ()
    | .ok (.vstr "NIMFLUXNode") => findNodesByClassType h rest (some nodeId) li
    | .ok (.vstr "LoadImage") => findNodesByClassType h rest nim (some nodeId)
    | .ok _ => findNodesByClassType h rest nim li

/-- `modify_comfyui_workflow_for_kontext` (plugin.py:2668-2759): deep-copy
the workflow, locate the `NIMFLUXNode` and `LoadImage` nodes, patch
`prompt`, `steps` and `image` on the copy's `inputs` dicts.  Returns the
copy's root address (or `none` for every `return None`/raising path,
mirroring the enclosing `except`) together with the final heap. -/
def modify_comfyui_workflow_for_kontext (fuel : Nat) (h : Heap) (workflowAddr : Nat)
    (prompt imageName : String) (steps : ℤ) : Option Nat × Heap :=
  match deepcopyVal fuel h (.vref workflowAddr) with
  | none => (none, h)
  | some (root, h1) =>
    match h1, root with
    | h1, .vref rootAddr =>
      match h1.lookup rootAddr with
      | none => (none, h1)
      | some d =>
        match findNodesByClassType h1 d none none with
        | .error _ => (none, h1)
        | .ok (none, _) => (none, h1)
        | .ok (some _, none) => (none, h1)
        | .ok (some nimId, some liId) =>
          match hIndex h1 (.vref rootAddr) nimId with
          | .error _ => (none, h1)
          | .ok nimNode =>
            match hIndex h1 (.vref rootAddr) liId with
            | .error _ => (none, h1)
            | .ok liNode =>
              match hIn h1 "inputs" nimNode with
              | .error _ => (none, h1)
              | .ok false => (none, h1)
              | .ok true =>
                match hIndex h1 nimNode "inputs" with
                | .error _ => (none, h1)
                | .ok nimInputs =>
                  match hIn h1 "prompt" nimInputs with
                  | .error _ => (none, h1)
                  | .ok false => (none, h1)
                  | .ok true =>
                    match hSet h1 nimInputs "prompt" (.vstr prompt) with
                    | .error _ => (none, h1)
                    | .ok h2 =>
                      match hIndex h2 nimNode "inputs" with
                      | .error _ => (none, h2)
                      | .ok nimInputs2 =>
                        match hIn h2 "steps" nimInputs2 with
                        | .error _ => (none, h2)
                        | .ok false => (none, h2)
                        | .ok true =>
                          match hSet h2 nimInputs2 "steps" (.vint steps) with
                          | .error _ => (none, h2)
                          | .ok h3 =>
                            match hIndex h3 liNode "inputs" with
                            | .error _ => (none, h3)
                            | .ok liInputs =>
                              match hIn h3 "image" liInputs with
                              | .error _ => (none, h3)
                              | .ok false => (none, h3)
                              | .ok true =>
                                match hSet h3 liInputs "image" (.vstr imageName) with
                                | .error _ => (none, h3)
                                | .ok h4 => (some rootAddr, h4)
    | h1, _ => (none, h1)   -- unreachable: the deep copy of a dict ref is a dict ref

/-- `modify_workflow_for_kontext` (plugin.py:1704-1738): deep-copy the
InvokeAI workflow, then patch
`["batch"]["graph"]["nodes"][prompt_node_id]["value"]` and
`["batch"]["graph"]["nodes"][kontext_node_id]["image"]["image_name"]` on
the copy.  Returns the copy's root address (or `none` for raising paths,
absorbed by the enclosing `except`) together with the final heap. -/
def modify_workflow_for_kontext (fuel : Nat) (h : Heap) (workflowAddr : Nat)
    (prompt imageName : String) : Option Nat × Heap :=
  match deepcopyVal fuel h (.vref workflowAddr) with
  | none => (none, h)
  | some (root, h1) =>
    match h1, root with
    | h1, .vref rootAddr =>
      match hIndex h1 (.vref rootAddr) "batch" with
      | .error _ => (none, h1)
      | .ok batch =>
        match hIndex h1 batch "graph" with
        | .error _ => (none, h1)
        | .ok graph =>
          match hIndex h1 graph "nodes" with
          | .error _ => (none, h1)
          | .ok nodes =>
            match hIndex h1 nodes "positive_prompt:0oQdkhpu9K" with
            | .error _ => (none, h1)
            | .ok promptNode =>
              match hSet h1 promptNode "value" (.vstr prompt) with
              | .error _ => (none, h1)
              | .ok h2 =>
                match hIndex h2 (.vref rootAddr) "batch" with
                | .error _ => (none, h2)
                | .ok batch2 =>
                  match hIndex h2 batch2 "graph" with
                  | .error _ => (none, h2)
                  | .ok graph2 =>
                    match hIndex h2 graph2 "nodes" with
                    | .error _ => (none, h2)
                    | .ok nodes2 =>
                      match hIndex h2 nodes2 "flux_kontext:MsQ9ynwazR" with
                      | .error _ => (none, h2)
                      | .ok kontextNode =>
                        match hIndex h2 kontextNode "image" with
                        | .error _ => (none, h2)
                        | .ok imageDict =>
                          match hSet h2 imageDict "image_name" (.vstr imageName) with
                          | .error _ => (none, h2)
                          | .ok h3 => (some rootAddr, h3)
    | h1, _ => (none, h1)   -- unreachable: the deep copy of a dict ref is a dict ref

/-! ### Auxiliary predicates used by the theorem statements -/

/-- Does a decoded text message qualify as the "normal completion" event:
type `executing`, this session's `prompt_id`, and a `null` node? -/
def isExecNullMsg (promptId : String) : Json → Bool
  | .obj kvs =>
    match kvs.lookup "type", kvs.lookup "data" with
    | some (.str t), some (.obj dkvs) =>
      t = "executing" &&
        (match dkvs.lookup "prompt_id", dkvs.lookup "node" with
         | some (.str p), some .null => p = promptId
         | _, _ => false)
    | _, _ => false
  | _ => false

/-- Does the event stream contain the `executing`/`null` completion event
for this session? -/
def containsExecNull (promptId : String) (events : List WsEvent) : Bool :=
  events.any fun e =>
    match e with
    | .text j => isExecNullMsg promptId j
    | _ => false

/-- What the fallback download loop yields for a single well-shaped image
descriptor: `some content` on a 200 response, `none` otherwise. -/
def descDownload (comfyuiUrl : String) (fetch : String → FetchOutcome)
    (d : Json) : Option (List Nat) :=
  match d.lookupKey "filename" with
  | none => none
  | some fn =>
    match fetch (comfyViewUrl comfyuiUrl fn ((d.lookupKey "subfolder").getD (.str ""))) with
    | .resp 200 c => some c
    | _ => none

mutual

/-- Every dict reference inside the value points at or above address `n`. -/
def HVal.refsGE (n : Nat) : HVal → Bool
  | .vref a => decide (n ≤ a)
  | .vlist xs => HVal.refsGEList n xs
  | _ => true

/-- `HVal.refsGE` over a list of values. -/
def HVal.refsGEList (n : Nat) : List HVal → Bool
  | [] => true
  | x :: xs => HVal.refsGE n x && HVal.refsGEList n xs

end

/-- `HVal.refsGE` over a dict's bindings. -/
def dictRefsGE (n : Nat) : HDict → Bool
  | [] => true
  | (_, v) :: rest => HVal.refsGE n v && dictRefsGE n rest

/-- Every dict allocated at or above address `n` only references addresses
at or above `n` (the freshly copied region is closed). -/
def Heap.segClosed (h : Heap) (n : Nat) : Prop :=
  ∀ a d, n ≤ a → h.lookup a = some d → dictRefsGE n d = true

/-- Postcondition of a `deepcopy` step starting from heap `h`: the result
heap is well-formed, grows only upward, agrees with `h` below `h.next`,
and the region above `h.next` is closed. -/
def CopyPost (h h' : Heap) : Prop :=
  Heap.WF h' ∧ h.next ≤ h'.next ∧
  (∀ a, a < h.next → h'.lookup a = h.lookup a) ∧
  h'.segClosed h.next

/-- Invariant maintained while patching a fresh deep copy rooted above
`h0.next`: all pre-existing addresses read back unchanged, and the fresh
region stays closed (so every patch target stays above `h0.next`). -/
def PatchInv (h0 h : Heap) : Prop :=
  (∀ a, a < h0.next → h.lookup a = h0.lookup a) ∧ h.segClosed h0.next

/-- A small concrete heap holding a ComfyUI-shaped workflow template at
address 0 (a `NIMFLUXNode` and a `LoadImage` node with their `inputs`
dicts) and an InvokeAI-shaped template at address 5 (the nested
`batch`/`graph`/`nodes` structure), used to instantiate the patching
theorems on concrete data. -/
def sampleWorkflowHeap : Heap :=
  { mem :=
      [(0, [("21", .vref 1), ("11", .vref 3)]),
       (1, [("class_type", .vstr "NIMFLUXNode"), ("inputs", .vref 2)]),
       (2, [("prompt", .vstr "old prompt"), ("steps", .vint 20)]),
       (3, [("class_type", .vstr "LoadImage"), ("inputs", .vref 4)]),
       (4, [("image", .vstr "old.png")]),
       (5, [("batch", .vref 6)]),
       (6, [("graph", .vref 7)]),
       (7, [("nodes", .vref 8)]),
       (8, [("positive_prompt:0oQdkhpu9K", .vref 9),
            ("flux_kontext:MsQ9ynwazR", .vref 10)]),
       (9, [("value", .vstr "old value")]),
       (10, [("image", .vref 11)]),
       (11, [("image_name", .vstr "old name")])],
    next := 12 }

/-! ### Theorems -/

/-- The response variable of `main`'s tool-call loop is overwritten each
iteration: processing `ts ++ [t]` is processing `ts` and then the last
call alone. -/
theorem processToolCalls_append (rh : HandlerFun) (dirOk : Bool)
    (gallery : Option String) (ctx si : Option Json) (t : Json) :
    ∀ (ts : List Json) (st : Option Response × Json),
      processToolCalls rh dirOk gallery ctx si (ts ++ [t]) st =
        match processToolCalls rh dirOk gallery ctx si ts st with
        | .error e => .error e
        | .ok rc =>
          match processToolCall rh dirOk gallery ctx si t rc.2 with
          | .error e => .error e
          | .ok rc2 => .ok (some rc2.1, rc2.2) := by
  intro ts
  induction ts with
  | nil =>
    intro st
    cases h : processToolCall rh dirOk gallery ctx si t st.2 with
    | error e => simp [processToolCalls, h]
    | ok rc => simp [processToolCalls, h]
  | cons tc rest ih =>
    intro st
    cases h : processToolCall rh dirOk gallery ctx si tc st.2 with
    | error e => simp [processToolCalls, h]
    | ok rc => simp [processToolCalls, h, ih]

/-- C9 (amended): for every received frame that decodes to a JSON object
with a `tool_calls` list, `main` writes exactly one response: with an
empty list the serialization of `None` (JSON `null` plus the sentinel) is
written, and with a non-empty list the envelope written is the one
produced for the last element — responses to earlier elements are
overwritten.  (A frame decoding to a non-object raises instead; see the
counterexample.) -/
theorem main_single_write_semantics :
    (∀ (rh : HandlerFun) (dirOk : Bool) (gallery : Option String)
       (rest : List (String × Json)) (cmd0 : Json),
      processFrame rh dirOk gallery (.obj (("tool_calls", Json.arr []) :: rest)) cmd0
        = .ok (none, cmd0)) ∧
    write_response none = "null<<END>>" ∧
    (∀ (rh : HandlerFun) (dirOk : Bool) (gallery : Option String)
       (rest : List (String × Json)) (ts : List Json) (t : Json) (cmd0 : Json),
      processFrame rh dirOk gallery
          (.obj (("tool_calls", Json.arr (ts ++ [t])) :: rest)) cmd0 =
        match processFrame rh dirOk gallery
            (.obj (("tool_calls", Json.arr ts) :: rest)) cmd0 with
        | .error e => .error e
        | .ok rc =>
          match processToolCall rh dirOk gallery
              (optArg (Json.lookupKey (.obj (("tool_calls", Json.arr ts) :: rest)) "messages"))
              (optArg (Json.lookupKey (.obj (("tool_calls", Json.arr ts) :: rest)) "system_info"))
              t rc.2 with
          | .error e => .error e
          | .ok rc2 => .ok (some rc2.1, rc2.2)) := by
  refine ⟨?_, rfl, ?_⟩
  · intro rh dirOk gallery rest cmd0
    simp [processFrame, pyIn, pyIndex, pyIter, processToolCalls]
  · intro rh dirOk gallery rest ts t cmd0
    simp [processFrame, pyIn, pyIndex, pyIter, Json.lookupKey]
    exact processToolCalls_append rh dirOk gallery _ _ t ts _

/-- C9 counterexample: a received frame that decodes to JSON `42` makes
`"tool_calls" in input` raise a `TypeError` that escapes `main`, so no
response at all is written for that frame. -/
theorem main_nondict_frame_no_response :
    processFrame (fun _ _ _ _ => generate_success_response none) true none
      (Json.num 42) (Json.str "") = .error () := rfl

/-- C7: a well-formed frame whose tool call names a function outside the
command table yields `{success: false}` with a message naming the unknown
command; a frame without `tool_calls`, or a call without `func`, yields
the fixed `Plugin Error! Malformed input.` failure envelope. -/
theorem router_unknown_and_malformed_envelopes :
    (∀ (rh : HandlerFun) (dirOk : Bool) (gallery : Option String) (f : String)
       (extra : List (String × Json)) (cmd0 : Json),
      commandNames.contains f = false →
      processFrame rh dirOk gallery
          (.obj [("tool_calls", Json.arr [Json.obj (("func", Json.str f) :: extra)])]) cmd0
        = .ok (some (generate_failure_response
            (some ("Plugin Error! Unknown command: " ++ f))), Json.str f)) ∧
    (∀ (rh : HandlerFun) (dirOk : Bool) (gallery : Option String)
       (kvs : List (String × Json)) (cmd0 : Json),
      kvs.lookup "tool_calls" = none →
      processFrame rh dirOk gallery (.obj kvs) cmd0
        = .ok (some (generate_failure_response
            (some "Plugin Error! Malformed input.")), cmd0)) ∧
    (∀ (rh : HandlerFun) (dirOk : Bool) (gallery : Option String)
       (tckvs : List (String × Json)) (cmd0 : Json),
      tckvs.lookup "func" = none →
      processFrame rh dirOk gallery
          (.obj [("tool_calls", Json.arr [Json.obj tckvs])]) cmd0
        = .ok (some (generate_failure_response
            (some "Plugin Error! Malformed input.")), cmd0)) := by
  refine ⟨?_, ?_, ?_⟩
  · intro rh dirOk gallery f extra cmd0 hf
    have hf' : ¬ (f ∈ commandNames) := by simpa using hf
    simp [processFrame, pyIn, pyIndex, pyIter, processToolCalls, processToolCall, hf']
  · intro rh dirOk gallery kvs cmd0 hk
    simp [processFrame, pyIn, hk]
  · intro rh dirOk gallery tckvs cmd0 hk
    simp [processFrame, pyIn, pyIndex, pyIter, processToolCalls, processToolCall, hk]

/-- C7 witness: concrete instances of all three hypotheses. -/
theorem router_unknown_and_malformed_envelopes_witness :
    commandNames.contains "frobnicate" = false ∧
    ([("messages", Json.arr [])] : List (String × Json)).lookup "tool_calls" = none ∧
    ([("params", Json.obj [])] : List (String × Json)).lookup "func" = none ∧
    processFrame (fun _ _ _ _ => generate_success_response none) true none
        (.obj [("tool_calls", Json.arr [Json.obj [("func", Json.str "frobnicate")]])])
        (Json.str "")
      = .ok (some (generate_failure_response
          (some "Plugin Error! Unknown command: frobnicate")), Json.str "frobnicate") ∧
    processFrame (fun _ _ _ _ => generate_success_response none) true none
        (.obj [("messages", Json.arr [])]) (Json.str "")
      = .ok (some (generate_failure_response
          (some "Plugin Error! Malformed input.")), Json.str "") ∧
    processFrame (fun _ _ _ _ => generate_success_response none) true none
        (.obj [("tool_calls", Json.arr [Json.obj [("params", Json.obj [])]])]) (Json.str "")
      = .ok (some (generate_failure_response
          (some "Plugin Error! Malformed input.")), Json.str "") := by
  refine ⟨by decide, by simp, by simp, ?_, ?_, ?_⟩
  · exact (router_unknown_and_malformed_envelopes.1)
      (fun _ _ _ _ => generate_success_response none) true none "frobnicate" [] (Json.str "")
      (by decide)
  · exact (router_unknown_and_malformed_envelopes.2.1)
      (fun _ _ _ _ => generate_success_response none) true none
      [("messages", Json.arr [])] (Json.str "") (by simp)
  · exact (router_unknown_and_malformed_envelopes.2.2)
      (fun _ _ _ _ => generate_success_response none) true none
      [("params", Json.obj [])] (Json.str "") (by simp)

/-- C10: `execute_initialize_command` always returns a success envelope;
validation problems appear only as warning text inside the success
message; and for any other known command the router dispatches the target
handler and returns its envelope regardless of the validation outcome
(the initialize response computed before dispatch is discarded). -/
theorem initialize_always_succeeds_and_is_advisory :
    (∀ (dirOk : Bool) (gallery : Option String),
      (execute_initialize_command dirOk gallery).success = true) ∧
    (execute_initialize_command false none).message =
      some ("initialize success. Plugin initialized with warnings: " ++
        "OUTPUT_DIRECTORY configuration is invalid; GALLERY_DIRECTORY not configured") ∧
    (∀ (rh : HandlerFun) (dirOk : Bool) (gallery : Option String) (f : String)
       (tcRest : List (String × Json)) (cmd0 : Json),
      commandNames.contains f = true → f ≠ "initialize" → f ≠ "shutdown" →
      processFrame rh dirOk gallery
          (.obj [("tool_calls", Json.arr [Json.obj (("func", Json.str f) :: tcRest)])]) cmd0
        = .ok (some (rh f (optArg (tcRest.lookup "params")) none none), Json.str f)) := by
  refine ⟨?_, by decide, ?_⟩
  · intro dirOk gallery
    by_cases h : truthyOpt gallery = true <;> cases dirOk <;>
      simp [execute_initialize_command, generate_success_response, h]
  · intro rh dirOk gallery f tcRest cmd0 hf hni hns
    have hf' : f ∈ commandNames := by simpa using hf
    simp [processFrame, pyIn, pyIndex, pyIter, processToolCalls, processToolCall,
      Json.lookupKey, List.lookup, optArg, hf', hni, hns]

/-- C10 witness: the `comfyui_status` command with a failing validation
outcome still gets dispatched, and its handler's envelope is returned. -/
theorem initialize_always_succeeds_and_is_advisory_witness :
    commandNames.contains "comfyui_status" = true ∧
    ("comfyui_status" ≠ "initialize") ∧ ("comfyui_status" ≠ "shutdown") ∧
    (execute_initialize_command false none).success = true ∧
    processFrame (fun _ _ _ _ => generate_success_response (some "ok")) false none
        (.obj [("tool_calls", Json.arr [Json.obj [("func", Json.str "comfyui_status")]])])
        (Json.str "")
      = .ok (some (generate_success_response (some "ok")), Json.str "comfyui_status") := by
  refine ⟨by decide, by decide, by decide,
    initialize_always_succeeds_and_is_advisory.1 false none, ?_⟩
  exact initialize_always_succeeds_and_is_advisory.2.2
    (fun _ _ _ _ => generate_success_response (some "ok")) false none "comfyui_status"
    [] (Json.str "") (by decide) (by decide) (by decide)

/-- C4: `read_command` reads fixed-size 4096-byte chunks, stops at the
first short chunk, and JSON-decodes only that final chunk: whatever the
earlier (full, decodable) chunks contained, the result is
`json.loads(decode(last chunk))`, and any further pipe content is never
read. -/
theorem read_command_decodes_only_last_chunk
    (decodeChunk : List Nat → Option String) (parse : String → Option Json)
    (pre : List (List Nat)) (data : List Nat) (suffix : List ReadOutcome)
    (hfull : ∀ d ∈ pre, d.length = 4096)
    (hdec : ∀ d ∈ pre, (decodeChunk d).isSome = true)
    (hshort : data.length < 4096) :
    read_command decodeChunk parse
        (pre.map ReadOutcome.ok ++ ReadOutcome.ok data :: suffix)
      = (decodeChunk data).bind parse := by
  unfold read_command
  have main : ∀ (pre : List (List Nat)),
      (∀ d ∈ pre, d.length = 4096) → (∀ d ∈ pre, (decodeChunk d).isSome = true) →
      ∀ chunks, readCommandLoop decodeChunk parse
          (pre.map ReadOutcome.ok ++ ReadOutcome.ok data :: suffix) chunks
        = (decodeChunk data).bind parse := by
    intro pre
    induction pre with
    | nil =>
      intro _ _ chunks
      cases hd : decodeChunk data with
      | none => simp [readCommandLoop, hd]
      | some c => simp [readCommandLoop, hd, hshort]
    | cons d ds ih =>
      intro hf hd chunks
      obtain ⟨c, hc⟩ := Option.isSome_iff_exists.mp (hd d (by simp))
      have hlen : ¬ d.length < 4096 := by
        rw [hf d (by simp)]
        exact lt_irrefl 4096
      simp only [List.map_cons, List.cons_append, readCommandLoop, hc, hlen, if_false]
      exact ih (fun x hx => hf x (by simp [hx])) (fun x hx => hd x (by simp [hx])) _
  exact main pre hfull hdec []

/-- C4 witness: one full chunk followed by a short chunk; the decoded
command is the parse of the short chunk alone. -/
theorem read_command_decodes_only_last_chunk_witness :
    (∀ d ∈ [List.replicate 4096 97], d.length = 4096) ∧
    (∀ d ∈ [List.replicate 4096 97],
      ((fun (_ : List Nat) => some "chunk") d).isSome = true) ∧
    ([123, 125] : List Nat).length < 4096 ∧
    read_command (fun _ => some "chunk") (fun _ => some (Json.obj []))
        ([List.replicate 4096 97].map ReadOutcome.ok ++
          ReadOutcome.ok [123, 125] :: [ReadOutcome.err])
      = some (Json.obj []) := by
  have hfull : ∀ d ∈ [List.replicate (4096 : Nat) 97], d.length = 4096 := by
    intro d hd
    simp only [List.mem_singleton] at hd
    subst hd
    rw [List.length_replicate]
  have hdec : ∀ d ∈ [List.replicate (4096 : Nat) 97],
      ((fun (_ : List Nat) => some "chunk") d).isSome = true := by
    intro d _
    rfl
  refine ⟨hfull, hdec, by decide, ?_⟩
  exact read_command_decodes_only_last_chunk (fun _ => some "chunk")
    (fun _ => some (Json.obj [])) [List.replicate 4096 97] [123, 125] [ReadOutcome.err]
    hfull hdec (by decide)

/-- C1 (amended): whenever the `steps` parameter either fails Python's
`int(...)` conversion or converts to an integer outside `[20, 50]`, the
handler returns a failure envelope synchronously and performs no effect at
all — no background worker thread is started and no network call is made. -/
theorem kontext_steps_validated_before_spawn (cfg : KontextConfig)
    (params : List (String × PyVal)) (v : PyVal)
    (hv : params.lookup "steps" = some v)
    (hbad : pyToInt v = none ∨ ∃ n, pyToInt v = some n ∧ (n < 20 ∨ 50 < n)) :
    (generate_image_using_kontext cfg (some params)).1.success = false ∧
    (generate_image_using_kontext cfg (some params)).2 = [] := by
  unfold generate_image_using_kontext
  by_cases hg : truthyOpt cfg.galleryDirectory = true
  · rcases hbad with hnone | ⟨n, hn, hrange⟩
    · simp [hg, hv, hnone, generate_failure_response]
    · simp [hg, hv, hn, hrange, generate_failure_response]
  · simp [hg, generate_failure_response]

/-- C1 witness: an unconvertible `steps` value (`None`) is rejected
synchronously with no effects. -/
theorem kontext_steps_validated_before_spawn_witness :
    ([("steps", PyVal.vnone)].lookup "steps" = some PyVal.vnone) ∧
    (pyToInt PyVal.vnone = none ∨
      ∃ n, pyToInt PyVal.vnone = some n ∧ (n < 20 ∨ 50 < n)) ∧
    ((generate_image_using_kontext
        { galleryDirectory := some "C:/gallery", fluxKontextNimUrl := some "http://localhost:8011",
          invokeaiUrl := some "http://localhost:9090", comfyuiUrl := some "http://localhost:8188",
          inferenceBackend := "NIM", boardId := none }
        (some [("steps", PyVal.vnone)])).1.success = false ∧
     (generate_image_using_kontext
        { galleryDirectory := some "C:/gallery", fluxKontextNimUrl := some "http://localhost:8011",
          invokeaiUrl := some "http://localhost:9090", comfyuiUrl := some "http://localhost:8188",
          inferenceBackend := "NIM", boardId := none }
        (some [("steps", PyVal.vnone)])).2 = []) :=
  ⟨rfl, Or.inl rfl,
    kontext_steps_validated_before_spawn _ _ PyVal.vnone rfl (Or.inl rfl)⟩

/-- C1 counterexample: `steps = 30.5` (the rational `61/2`) is not an
integer, yet `int(30.5)` truncates to `30`, so the handler accepts the request, returns a success
acknowledgment and starts the background worker thread — contradicting the
claim that any non-integer `steps` yields a synchronous failure with no
background task. -/
theorem kontext_float_steps_accepted :
    generate_image_using_kontext
      { galleryDirectory := some "C:/gallery", fluxKontextNimUrl := some "http://localhost:8011",
        invokeaiUrl := some "http://localhost:9090", comfyuiUrl := some "http://localhost:8188",
        inferenceBackend := "NIM", boardId := none }
      (some [("prompt", PyVal.vstr "add dragons"),
             ("steps", PyVal.vfloat (Rat.mk' 61 2 (by decide) (by decide)))])
      = (generate_success_response (some
          ("Your Flux Kontext NIM generation request is in progress! " ++
           "Using screenshot from: C:/gallery with prompt: \"add dragons\"")),
         [.startThread "generate_image_using_kontext_nim_worker"]) := by
  decide

/-- The clamped center-crop arithmetic of the normalizer: when the resized
extent covers the target, the crop interval has exactly the target extent
and a non-negative origin. -/
theorem cropInterval_exact (nw : ℤ) (t : ℕ) (hnw : (t : ℤ) ≤ nw) :
    min nw (max 0 (Int.fdiv (nw - (t : ℤ)) 2) + (t : ℤ)) -
        max 0 (Int.fdiv (nw - (t : ℤ)) 2) = (t : ℤ) ∧
    0 ≤ max 0 (Int.fdiv (nw - (t : ℤ)) 2) := by
  have h0 : (0 : ℤ) ≤ nw - t := by omega
  have hd0 : 0 ≤ Int.fdiv (nw - (t : ℤ)) 2 := Int.fdiv_nonneg h0 (by norm_num)
  have hdle : Int.fdiv (nw - (t : ℤ)) 2 ≤ nw - t := by
    rw [Int.fdiv_eq_ediv _ (by norm_num : (0 : ℤ) ≤ 2)]
    exact Int.ediv_le_self _ h0
  rw [max_eq_right hd0, min_eq_right (by omega)]
  exact ⟨by omega, hd0⟩

/-- Whatever the resized extent, the clamped center-crop interval never
exceeds the target extent. -/
theorem cropInterval_le (nw : ℤ) (t : ℕ) :
    min nw (max 0 (Int.fdiv (nw - (t : ℤ)) 2) + (t : ℤ)) -
        max 0 (Int.fdiv (nw - (t : ℤ)) 2) ≤ (t : ℤ) := by
  have h := min_le_right nw (max 0 (Int.fdiv (nw - (t : ℤ)) 2) + (t : ℤ))
  omega

/-- C5 (amended): both normalizer functions share the geometry
`scale = max(targetW/srcW, targetH/srcH)` in IEEE-754 double arithmetic,
`int(dim * scale)` resizing, and clamped center-cropping; the crop origins
are non-negative, the crop box never exceeds the target, and it is exactly
`targetW x targetH` whenever the truncated resized dimensions cover the
target.  Floating-point rounding can leave a resized dimension below the
target, so exactness is not unconditional (see the counterexample). -/
theorem normalizer_crop_covers_target (sw sh tw th : ℕ) :
    prepare_image_for_kontext sw sh tw th = kontextCropGeometry sw sh tw th ∧
    prepare_image_for_comfyui sw sh tw th = kontextCropGeometry sw sh tw th ∧
    0 ≤ (kontextCropGeometry sw sh tw th).left ∧
    0 ≤ (kontextCropGeometry sw sh tw th).top ∧
    (kontextCropGeometry sw sh tw th).right -
        (kontextCropGeometry sw sh tw th).left ≤ tw ∧
    (kontextCropGeometry sw sh tw th).bottom -
        (kontextCropGeometry sw sh tw th).top ≤ th ∧
    ((tw : ℤ) ≤ (kontextCropGeometry sw sh tw th).newWidth →
     (th : ℤ) ≤ (kontextCropGeometry sw sh tw th).newHeight →
     (kontextCropGeometry sw sh tw th).right -
         (kontextCropGeometry sw sh tw th).left = tw ∧
     (kontextCropGeometry sw sh tw th).bottom -
         (kontextCropGeometry sw sh tw th).top = th) := by
  refine ⟨rfl, rfl, ?_, ?_, ?_, ?_, ?_⟩ <;> simp only [kontextCropGeometry]
  · exact le_max_left _ _
  · exact le_max_left _ _
  · exact cropInterval_le _ tw
  · exact cropInterval_le _ th
  · intro hw hh
    exact ⟨(cropInterval_exact _ tw hw).1, (cropInterval_exact _ th hh).1⟩

set_option maxRecDepth 4000 in
/-- C5 witness: a 696x376 source scaled to the default 1392x752 target
has an exactly representable scale of 2.0, the resized dimensions cover
the target, and the crop box is exactly 1392x752. -/
theorem normalizer_crop_covers_target_witness :
    ((1392 : ℤ) ≤ (kontextCropGeometry 696 376 1392 752).newWidth) ∧
    ((752 : ℤ) ≤ (kontextCropGeometry 696 376 1392 752).newHeight) ∧
    ((kontextCropGeometry 696 376 1392 752).right -
        (kontextCropGeometry 696 376 1392 752).left = 1392 ∧
     (kontextCropGeometry 696 376 1392 752).bottom -
        (kontextCropGeometry 696 376 1392 752).top = 752) := by
  refine ⟨by decide, by decide, ?_⟩
  exact (normalizer_crop_covers_target 696 376 1392 752).2.2.2.2.2.2
    (by decide) (by decide)

set_option maxRecDepth 4000 in
/-- C5 counterexample: a 49x49 source with a 1x1 target.  In binary64,
`1/49` rounds so that `49 * (1/49)` is the double just below `1`
(`0.9999999999999999`), hence `int(...)` truncates the resized dimensions
to `0`: the crop box is 0 wide, not the claimed exact 1x1 (and in the
source, PIL rejects the 0x0 resize, so the function returns `None` and no
1x1 output exists either way). -/
theorem normalizer_float_undershoot :
    (kontextCropGeometry 49 49 1 1).newWidth = 0 ∧
    ¬ ((kontextCropGeometry 49 49 1 1).right -
        (kontextCropGeometry 49 49 1 1).left = 1) := by
  decide

/-- A qualifying `executing`/`null` message makes the monitor take the
`workflow_completed = True` break. -/
theorem monitorTextStep_of_execNull (pid : String) (j : Json)
    (h : isExecNullMsg pid j = true) : monitorTextStep pid j = .ok true := by
  cases j with
  | null => exact absurd h (by simp [isExecNullMsg])
  | bool b => exact absurd h (by simp [isExecNullMsg])
  | num n => exact absurd h (by simp [isExecNullMsg])
  | str s => exact absurd h (by simp [isExecNullMsg])
  | arr xs => exact absurd h (by simp [isExecNullMsg])
  | obj kvs =>
    rw [isExecNullMsg] at h
    split at h
    · rename_i t dkvs htype hdata
      rw [Bool.and_eq_true] at h
      obtain ⟨ht, hinner⟩ := h
      have ht' : t = "executing" := of_decide_eq_true ht
      subst ht'
      split at hinner
      · rename_i p hpid hnode
        have hp : p = pid := of_decide_eq_true hinner
        subst hp
        simp [monitorTextStep, pyIndex, pyIn, htype, hdata, hpid, hnode,
          Bind.bind, Except.bind, Pure.pure, Except.pure]
      · exact absurd hinner Bool.false_ne_true
    · exact absurd h Bool.false_ne_true

/-- If the event stream contains the qualifying `executing`/`null` message
for this session and the loop terminates normally, it terminates with
`workflow_completed = True`. -/
theorem monitorLoop_completed_of_execNull (pid : String) :
    ∀ (events : List WsEvent) (imgs : Option (List (List Nat)))
      (c : Bool) (i : Option (List (List Nat))),
      containsExecNull pid events = true →
      monitorLoop pid events imgs = .finished c i → c = true := by
  intro events
  induction events with
  | nil => intro imgs c i hc; simp [containsExecNull] at hc
  | cons e rest ih =>
    intro imgs c i hc hm
    cases e with
    | wsTimeout =>
      simp only [containsExecNull, List.any_cons] at hc
      exact ih imgs c i (by simpa [containsExecNull] using hc) (by simpa [monitorLoop] using hm)
    | recvError =>
      simp only [containsExecNull, List.any_cons] at hc
      exact ih imgs c i (by simpa [containsExecNull] using hc) (by simpa [monitorLoop] using hm)
    | textInvalid =>
      simp only [containsExecNull, List.any_cons] at hc
      exact ih imgs c i (by simpa [containsExecNull] using hc) (by simpa [monitorLoop] using hm)
    | binary b =>
      simp only [containsExecNull, List.any_cons] at hc
      exact ih _ c i (by simpa [containsExecNull] using hc) (by simpa [monitorLoop] using hm)
    | text j =>
      by_cases hx : isExecNullMsg pid j = true
      · have hstep := monitorTextStep_of_execNull pid j hx
        rw [monitorLoop, hstep] at hm
        cases hm
        rfl
      · cases hstep : monitorTextStep pid j with
        | error e => rw [monitorLoop, hstep] at hm; cases hm
        | ok b =>
          cases b with
          | true => rw [monitorLoop, hstep] at hm; cases hm; rfl
          | false =>
            rw [monitorLoop, hstep] at hm
            simp only [containsExecNull, List.any_cons, hx, Bool.false_or] at hc
            exact ih imgs c i hc hm

/-- C2 (amended): when the monitoring loop ends with binary image frames
accumulated (`output_images` non-empty), the session resolves with those
images and the history fallback poll is not invoked; and if the stream
contained the `executing`/`null` event for this session's correlation id,
the loop indeed ended in the `Completed` break.  Completion alone does not
skip the fallback — with no binary frame received, the poll still runs
(see the counterexample). -/
theorem comfyui_stream_images_skip_fallback (comfyuiUrl : String) (env : ComfyEnv)
    (pid : String) (c : Bool) (imgs : List (List Nat))
    (hq : env.queueResult = some pid) (hcon : env.connectOk = true)
    (hloop : monitorLoop pid env.events none = .finished c (some imgs)) :
    execute_comfyui_workflow comfyuiUrl env = (.images imgs, 0) ∧
    (containsExecNull pid env.events = true → c = true) := by
  constructor
  · unfold execute_comfyui_workflow
    rw [hq]
    simp [hcon, hloop]
  · intro hc
    exact monitorLoop_completed_of_execNull pid env.events none c (some imgs) hc hloop

/-- C2 witness: a binary frame followed by the `executing`/`null` event;
the session completes with the streamed image and no fallback poll. -/
theorem comfyui_stream_images_skip_fallback_witness :
    ({ queueResult := some "P", connectOk := true,
       events := [.binary [7, 8],
                  .text (.obj [("type", Json.str "executing"),
                               ("data", Json.obj [("prompt_id", Json.str "P"),
                                                  ("node", Json.null)])])],
       history := .raises, fetch := fun _ => .raises : ComfyEnv }.queueResult
        = some "P") ∧
    monitorLoop "P"
        [.binary [7, 8],
         .text (.obj [("type", Json.str "executing"),
                      ("data", Json.obj [("prompt_id", Json.str "P"),
                                         ("node", Json.null)])])] none
      = .finished true (some [[7, 8]]) ∧
    execute_comfyui_workflow "http://localhost:8188"
        { queueResult := some "P", connectOk := true,
          events := [.binary [7, 8],
                     .text (.obj [("type", Json.str "executing"),
                                  ("data", Json.obj [("prompt_id", Json.str "P"),
                                                     ("node", Json.null)])])],
          history := .raises, fetch := fun _ => .raises }
      = (.images [[7, 8]], 0) := by
  refine ⟨rfl, by rfl, ?_⟩
  exact (comfyui_stream_images_skip_fallback "http://localhost:8188" _ "P" true [[7, 8]]
    rfl rfl (by rfl)).1

/-- C2 counterexample: the stream delivers exactly the `executing`/`null`
completion event for `P` (well before any deadline) and nothing else; the
claim says the history fallback poll is not invoked, but the code polls the
history anyway (one fallback attempt) because no binary frame arrived. -/
theorem comfyui_execNull_still_polls_history :
    execute_comfyui_workflow "http://localhost:8188"
      { queueResult := some "P", connectOk := true,
        events := [.text (.obj [("type", Json.str "executing"),
                                ("data", Json.obj [("prompt_id", Json.str "P"),
                                                   ("node", Json.null)])])],
        history := .raises, fetch := fun _ => .raises }
      = (.failure, 1) := by rfl

/-- C3 (amended): whenever the monitoring loop terminates normally without
any stream-delivered image — timeout, completion event without binaries,
or a stream that closed without qualifying events — the history fallback
poll is attempted exactly once before the result is reported.  When the
event-stream connection itself fails, however, the function reports
failure immediately with no fallback attempt (see the counterexample). -/
theorem comfyui_fallback_once_when_no_stream_artifact (comfyuiUrl : String)
    (env : ComfyEnv) (pid : String) (c : Bool)
    (hq : env.queueResult = some pid) (hcon : env.connectOk = true)
    (hloop : monitorLoop pid env.events none = .finished c none) :
    (execute_comfyui_workflow comfyuiUrl env).2 = 1 := by
  unfold execute_comfyui_workflow
  rw [hq]
  simp only [hcon, hloop]
  cases historyFallbackPoll comfyuiUrl pid env.history env.fetch <;> rfl

/-- C3 witness: an event stream that times out with no events at all; the
fallback poll runs exactly once. -/
theorem comfyui_fallback_once_when_no_stream_artifact_witness :
    ({ queueResult := some "P", connectOk := true, events := [],
       history := .raises, fetch := fun _ => .raises : ComfyEnv }.queueResult
        = some "P") ∧
    monitorLoop "P" ([] : List WsEvent) none = .finished false none ∧
    (execute_comfyui_workflow "http://localhost:8188"
        { queueResult := some "P", connectOk := true, events := [],
          history := .raises, fetch := fun _ => .raises }).2 = 1 := by
  refine ⟨rfl, rfl, ?_⟩
  exact comfyui_fallback_once_when_no_stream_artifact "http://localhost:8188" _ "P" false
    rfl rfl rfl

/-- C3 counterexample: the event-stream connection fails with an
unrecoverable connection error; the claim says the fallback poll is still
attempted exactly once, but the code returns failure from the exception
handler with zero fallback attempts — even though the history endpoint
holds a retrievable image for this session. -/
theorem comfyui_connect_error_skips_fallback :
    execute_comfyui_workflow "http://localhost:8188"
      { queueResult := some "P", connectOk := false, events := [],
        history := .resp 200 (.obj [("P", Json.obj [("outputs", Json.obj
          [("1", Json.obj [("images", Json.arr
            [Json.obj [("filename", Json.str "a.png")]])])])])]),
        fetch := fun _ => .resp 200 [1, 2] }
      = (.failure, 0) := by rfl

/-- A `filterMap` whose function succeeds everywhere keeps the length. -/
theorem filterMap_length_of_isSome {α β : Type} (f : α → Option β) :
    ∀ (l : List α), (∀ a ∈ l, (f a).isSome = true) →
      (l.filterMap f).length = l.length := by
  intro l
  induction l with
  | nil => intro _; rfl
  | cons a rest ih =>
    intro h
    obtain ⟨b, hb⟩ := Option.isSome_iff_exists.mp (h a (by simp))
    simp [List.filterMap_cons, hb, ih fun x hx => h x (by simp [hx])]

/-- Over well-shaped descriptors with no raising fetch, the fallback
download loop appends exactly the bodies of the 200-responses, one probe
per descriptor at its deterministic view URL, skipping non-200 fetches. -/
theorem fallbackDownloadLoop_filterMap (comfyuiUrl : String)
    (fetch : String → FetchOutcome) :
    ∀ (descs : List Json) (acc : List (List Nat)),
      (∀ d ∈ descs, ∃ kvs fn, d = .obj kvs ∧ kvs.lookup "filename" = some fn) →
      (∀ u, fetch u ≠ .raises) →
      fallbackDownloadLoop comfyuiUrl fetch descs acc
        = acc ++ descs.filterMap (descDownload comfyuiUrl fetch) := by
  intro descs
  induction descs with
  | nil => intro acc _ _; simp [fallbackDownloadLoop]
  | cons d rest ih =>
    intro acc hshape hnr
    obtain ⟨kvs, fn, hd, hfn⟩ := hshape d (by simp)
    subst hd
    have hrest : ∀ d ∈ rest, ∃ kvs fn, d = .obj kvs ∧ kvs.lookup "filename" = some fn :=
      fun x hx => hshape x (by simp [hx])
    cases hf : fetch (comfyViewUrl comfyuiUrl fn ((List.lookup "subfolder" kvs).getD (.str ""))) with
    | raises => exact absurd hf (hnr _)
    | resp status content =>
      by_cases hs : status = 200
      · subst hs
        simp [fallbackDownloadLoop, pyIndex, pyGetD, hfn, hf, descDownload,
          Json.lookupKey, ih _ hrest hnr]
      · simp [fallbackDownloadLoop, pyIndex, pyGetD, hfn, hf, descDownload,
          Json.lookupKey, hs, ih _ hrest hnr]

/-- When the history endpoint answers 200 with the session's record, the
fallback poll resolves to the download loop over the recorded
descriptors. -/
theorem historyFallbackPoll_found (comfyuiUrl pid : String)
    (fetch : String → FetchOutcome)
    (bodyKvs whKvs outsKvs sioKvs : List (String × Json)) (descs : List Json)
    (h1 : bodyKvs.lookup pid = some (.obj whKvs))
    (h2 : whKvs.lookup "outputs" = some (.obj outsKvs))
    (h3 : outsKvs.lookup "1" = some (.obj sioKvs))
    (h4 : sioKvs.lookup "images" = some (.arr descs)) :
    historyFallbackPoll comfyuiUrl pid (.resp 200 (.obj bodyKvs)) fetch
      = some (fallbackDownloadLoop comfyuiUrl fetch descs []) := by
  simp [historyFallbackPoll, pyIn, pyIndex, pyGetD, pyIter, h1, h2, h3, h4]

/-- C6 (amended): when the stream yields no artifact and the history
endpoint returns the session's N image descriptors, the fallback poll
(invoked exactly once) fetches each descriptor at its deterministic
filename/subfolder/type URL, skips (without aborting) every fetch that
answers a non-success status, and resolves with exactly the successfully
retrieved images — exactly N of them when every fetch succeeds.  When
descriptors were found but none were retrievable, it resolves `Completed`
with an empty image set rather than failure (see the counterexample). -/
theorem comfyui_history_fallback_retrieves (comfyuiUrl : String) (env : ComfyEnv)
    (pid : String) (c : Bool)
    (bodyKvs whKvs outsKvs sioKvs : List (String × Json)) (descs : List Json)
    (hq : env.queueResult = some pid) (hcon : env.connectOk = true)
    (hloop : monitorLoop pid env.events none = .finished c none)
    (hh : env.history = .resp 200 (.obj bodyKvs))
    (h1 : bodyKvs.lookup pid = some (.obj whKvs))
    (h2 : whKvs.lookup "outputs" = some (.obj outsKvs))
    (h3 : outsKvs.lookup "1" = some (.obj sioKvs))
    (h4 : sioKvs.lookup "images" = some (.arr descs))
    (hshape : ∀ d ∈ descs, ∃ kvs fn, d = .obj kvs ∧ kvs.lookup "filename" = some fn)
    (hnr : ∀ u, env.fetch u ≠ .raises) :
    execute_comfyui_workflow comfyuiUrl env
      = (.images (descs.filterMap (descDownload comfyuiUrl env.fetch)), 1) ∧
    ((∀ d ∈ descs, (descDownload comfyuiUrl env.fetch d).isSome = true) →
      (descs.filterMap (descDownload comfyuiUrl env.fetch)).length = descs.length) := by
  constructor
  · unfold execute_comfyui_workflow
    rw [hq]
    simp only [hcon, hloop]
    rw [hh, historyFallbackPoll_found comfyuiUrl pid env.fetch bodyKvs whKvs outsKvs
      sioKvs descs h1 h2 h3 h4,
      fallbackDownloadLoop_filterMap comfyuiUrl env.fetch descs [] hshape hnr]
    rfl
  · intro hall
    exact filterMap_length_of_isSome _ descs hall

/-- C6 witness: two descriptors, both fetches succeed; the session resolves
with exactly those two images after one fallback poll. -/
theorem comfyui_history_fallback_retrieves_witness :
    (monitorLoop "P" ([] : List WsEvent) none = .finished false none) ∧
    ((fun (_ : String) => FetchOutcome.resp 200 [9]) "u" ≠ .raises) ∧
    execute_comfyui_workflow "http://localhost:8188"
        { queueResult := some "P", connectOk := true, events := [],
          history := .resp 200 (.obj [("P", Json.obj [("outputs", Json.obj
            [("1", Json.obj [("images", Json.arr
              [Json.obj [("filename", Json.str "a.png")],
               Json.obj [("filename", Json.str "b.png"),
                         ("subfolder", Json.str "sub")]])])])])]),
          fetch := fun _ => .resp 200 [9] }
      = (.images [[9], [9]], 1) := by
  refine ⟨rfl, by simp, ?_⟩
  have h := (comfyui_history_fallback_retrieves "http://localhost:8188"
    { queueResult := some "P", connectOk := true, events := [],
      history := .resp 200 (.obj [("P", Json.obj [("outputs", Json.obj
        [("1", Json.obj [("images", Json.arr
          [Json.obj [("filename", Json.str "a.png")],
           Json.obj [("filename", Json.str "b.png"),
                     ("subfolder", Json.str "sub")]])])])])]),
      fetch := fun _ => .resp 200 [9] }
    "P" false
    [("P", Json.obj [("outputs", Json.obj
        [("1", Json.obj [("images", Json.arr
          [Json.obj [("filename", Json.str "a.png")],
           Json.obj [("filename", Json.str "b.png"),
                     ("subfolder", Json.str "sub")]])])])])]
    [("outputs", Json.obj [("1", Json.obj [("images", Json.arr
        [Json.obj [("filename", Json.str "a.png")],
         Json.obj [("filename", Json.str "b.png"),
                   ("subfolder", Json.str "sub")]])])])]
    [("1", Json.obj [("images", Json.arr
        [Json.obj [("filename", Json.str "a.png")],
         Json.obj [("filename", Json.str "b.png"),
                   ("subfolder", Json.str "sub")]])])]
    [("images", Json.arr
        [Json.obj [("filename", Json.str "a.png")],
         Json.obj [("filename", Json.str "b.png"),
                   ("subfolder", Json.str "sub")]])]
    [Json.obj [("filename", Json.str "a.png")],
     Json.obj [("filename", Json.str "b.png"), ("subfolder", Json.str "sub")]]
    rfl rfl rfl rfl rfl rfl rfl rfl
    (by
      intro d hd
      simp only [List.mem_cons, List.not_mem_nil, or_false] at hd
      rcases hd with hd | hd
      · exact ⟨[("filename", Json.str "a.png")], Json.str "a.png", hd, rfl⟩
      · exact ⟨[("filename", Json.str "b.png"), ("subfolder", Json.str "sub")],
          Json.str "b.png", hd, rfl⟩)
    (fun u => by simp)).1
  rw [h]
  rfl

/-- C6 counterexample: the history endpoint returns one descriptor for the
session but its fetch answers 404, so nothing is retrievable; the claim
says the session then resolves as failure, but the code returns the
(non-empty) `output_images` dict holding an empty image list — a
`Completed` resolution with zero images rather than failure. -/
theorem comfyui_history_fallback_empty_not_failure :
    execute_comfyui_workflow "http://localhost:8188"
      { queueResult := some "P", connectOk := true, events := [],
        history := .resp 200 (.obj [("P", Json.obj [("outputs", Json.obj
          [("1", Json.obj [("images", Json.arr
            [Json.obj [("filename", Json.str "a.png")]])])])])]),
        fetch := fun _ => .resp 404 [] }
      = (.images [], 1) := by rfl

mutual

/-- `HVal.refsGE` is antitone in the bound. -/
theorem HVal.refsGE_mono {m n : Nat} (hmn : m ≤ n) :
    ∀ (v : HVal), HVal.refsGE n v = true → HVal.refsGE m v = true
  | .vref a, h => by
    rw [HVal.refsGE] at h ⊢
    have := of_decide_eq_true h
    exact decide_eq_true (by omega)
  | .vlist xs, h => by
    rw [HVal.refsGE] at h ⊢
    exact HVal.refsGEList_mono hmn xs h
  | .vstr _, _ => rfl
  | .vint _, _ => rfl
  | .vfloat _, _ => rfl
  | .vnull, _ => rfl

/-- `HVal.refsGEList` is antitone in the bound. -/
theorem HVal.refsGEList_mono {m n : Nat} (hmn : m ≤ n) :
    ∀ (xs : List HVal), HVal.refsGEList n xs = true → HVal.refsGEList m xs = true
  | [], _ => rfl
  | x :: xs, h => by
    rw [HVal.refsGEList] at h ⊢
    rw [Bool.and_eq_true] at h ⊢
    exact ⟨HVal.refsGE_mono hmn x h.1, HVal.refsGEList_mono hmn xs h.2⟩

end

/-- `dictRefsGE` is antitone in the bound. -/
theorem dictRefsGE_mono {m n : Nat} (hmn : m ≤ n) :
    ∀ (d : HDict), dictRefsGE n d = true → dictRefsGE m d = true
  | [], _ => rfl
  | (_, v) :: rest, h => by
    rw [dictRefsGE] at h ⊢
    rw [Bool.and_eq_true] at h ⊢
    exact ⟨HVal.refsGE_mono hmn v h.1, dictRefsGE_mono hmn rest h.2⟩

/-- Values looked up in a `dictRefsGE` dict satisfy `refsGE`. -/
theorem refsGE_of_dict_lookup {n : Nat} :
    ∀ (d : HDict) (k : String) (w : HVal),
      dictRefsGE n d = true → d.lookup k = some w → HVal.refsGE n w = true
  | [], _, _, _, hw => by cases hw
  | (k', v') :: rest, k, w, hd, hw => by
    rw [dictRefsGE, Bool.and_eq_true] at hd
    rw [List.lookup] at hw
    cases hk : (k == k') with
    | true => rw [hk] at hw; cases hw; exact hd.1
    | false => rw [hk] at hw; exact refsGE_of_dict_lookup rest k w hd.2 hw

/-- `setKey` of a `refsGE` value preserves `dictRefsGE`. -/
theorem dictRefsGE_setKey {n : Nat} (k : String) (v : HVal)
    (hv : HVal.refsGE n v = true) :
    ∀ (d : HDict), dictRefsGE n d = true → dictRefsGE n (setKey d k v) = true
  | [], _ => by simp [setKey, dictRefsGE, hv]
  | (k', v') :: rest, hd => by
    rw [dictRefsGE, Bool.and_eq_true] at hd
    rw [setKey]
    by_cases hk : k' = k
    · simp only [hk, if_true]
      rw [dictRefsGE, Bool.and_eq_true]
      exact ⟨hv, hd.2⟩
    · simp only [hk, if_false]
      rw [dictRefsGE, Bool.and_eq_true]
      exact ⟨hd.1, dictRefsGE_setKey k v hv rest hd.2⟩

/-- An allocated address is always below `next`. -/
theorem Heap.lookup_lt_next {h : Heap} (hwf : h.WF) {a : Nat} {d : HDict}
    (hl : h.lookup a = some d) : a < h.next := by
  unfold Heap.lookup at hl
  cases hf : h.mem.find? (fun p => p.1 = a) with
  | none => rw [hf] at hl; cases hl
  | some p =>
    have hp : p.1 = a := by simpa using List.find?_some hf
    have hm := List.mem_of_find?_eq_some hf
    rw [← hp]
    exact hwf p hm

/-- Reading the freshly allocated cell. -/
theorem Heap.lookup_alloc_self (h : Heap) (d : HDict) :
    (h.alloc d).2.lookup h.next = some d := by
  simp [Heap.alloc, Heap.lookup, List.find?]

/-- Allocation leaves every other address unchanged. -/
theorem Heap.lookup_alloc_ne (h : Heap) (d : HDict) {a : Nat} (hne : a ≠ h.next) :
    (h.alloc d).2.lookup a = h.lookup a := by
  have : (decide (h.next = a)) = false := by
    simp [Ne.symm hne]
  simp [Heap.alloc, Heap.lookup, List.find?, this]

/-- Allocation preserves well-formedness. -/
theorem Heap.WF_alloc {h : Heap} (hwf : h.WF) (d : HDict) : (h.alloc d).2.WF := by
  intro p hp
  simp only [Heap.alloc, List.mem_cons] at hp
  rcases hp with hp | hp
  · subst hp; exact Nat.lt_succ_self _
  · exact Nat.lt_succ_of_lt (hwf p hp)

/-- `find?` by address ignores the `setKey` rewrite at a different address. -/
theorem find?_map_setField_ne (b : Nat) (k : String) (v : HVal) (a : Nat)
    (hne : a ≠ b) :
    ∀ (mem : List (Nat × HDict)),
      (mem.map fun p => if p.1 = b then (p.1, setKey p.2 k v) else p).find?
          (fun p => p.1 = a)
        = mem.find? (fun p => p.1 = a)
  | [] => rfl
  | p :: rest => by
    by_cases hp : p.1 = b
    · have hpa : (decide (b = a)) = false := by simp [Ne.symm hne]
      simp only [List.map_cons, List.find?, hp, if_true, hpa]
      exact find?_map_setField_ne b k v a hne rest
    · simp only [List.map_cons, List.find?, hp, if_false]
      cases hpa : (decide (p.1 = a)) with
      | true => simp only [hpa]
      | false =>
        simp only [hpa]
        exact find?_map_setField_ne b k v a hne rest

/-- In-place field assignment leaves other addresses unchanged. -/
theorem Heap.lookup_setField_ne (h : Heap) (b : Nat) (k : String) (v : HVal)
    {a : Nat} (hne : a ≠ b) : (h.setField b k v).lookup a = h.lookup a := by
  unfold Heap.lookup Heap.setField
  rw [find?_map_setField_ne b k v a hne]

/-- In-place field assignment rewrites exactly the targeted dict. -/
theorem Heap.lookup_setField_eq (h : Heap) (b : Nat) (k : String) (v : HVal) :
    (h.setField b k v).lookup b = (h.lookup b).map (fun d => setKey d k v) := by
  unfold Heap.lookup Heap.setField
  induction h.mem with
  | nil => rfl
  | cons p rest ih =>
    by_cases hp : p.1 = b
    · have hpb : (decide (p.1 = b)) = true := decide_eq_true hp
      simp only [List.map_cons, List.find?, hp, if_true, hpb]
      rfl
    · have hpb : (decide (p.1 = b)) = false := decide_eq_false hp
      simp only [List.map_cons, List.find?, hp, if_false, hpb]
      exact ih

/-- `setField` preserves well-formedness (addresses are unchanged). -/
theorem Heap.WF_setField {h : Heap} (hwf : h.WF) (b : Nat) (k : String) (v : HVal) :
    (h.setField b k v).WF := by
  intro p hp
  simp only [Heap.setField, List.mem_map] at hp
  obtain ⟨q, hq, hpq⟩ := hp
  have hql := hwf q hq
  subst hpq
  have hnext : (h.setField b k v).next = h.next := rfl
  rw [hnext]
  by_cases hqb : q.1 = b
  · rw [if_pos hqb]; exact hql
  · rw [if_neg hqb]; exact hql

/-- A well-formed heap trivially satisfies the copy postcondition on
itself. -/
theorem CopyPost.refl_of_WF {h : Heap} (hwf : h.WF) : CopyPost h h := by
  refine ⟨hwf, le_refl _, fun a _ => rfl, ?_⟩
  intro a d ha hl
  exact absurd (Heap.lookup_lt_next hwf hl) (by omega)

/-- Copy postconditions compose. -/
theorem CopyPost.trans {h1 h2 h3 : Heap} (p12 : CopyPost h1 h2)
    (p23 : CopyPost h2 h3) : CopyPost h1 h3 := by
  obtain ⟨w2, n12, pres12, seg12⟩ := p12
  obtain ⟨w3, n23, pres23, seg23⟩ := p23
  refine ⟨w3, le_trans n12 n23, ?_, ?_⟩
  · intro a ha
    rw [pres23 a (by omega), pres12 a ha]
  · intro a d ha hl
    by_cases h2a : a < h2.next
    · rw [pres23 a h2a] at hl
      exact seg12 a d ha hl
    · exact dictRefsGE_mono n12 d (seg23 a d (by omega) hl)

/-- Allocating a dict whose references stay above the original `next`
extends the copy postcondition, and the fresh address is above it too. -/
theorem CopyPost.alloc {h h1 : Heap} (p : CopyPost h h1) (d' : HDict)
    (hd' : dictRefsGE h.next d' = true) :
    CopyPost h (h1.alloc d').2 ∧ h.next ≤ (h1.alloc d').1 := by
  obtain ⟨w1, n1, pres1, seg1⟩ := p
  have haddr : (h1.alloc d').1 = h1.next := rfl
  have hnext : (h1.alloc d').2.next = h1.next + 1 := rfl
  refine ⟨⟨Heap.WF_alloc w1 d', by omega, ?_, ?_⟩, by omega⟩
  · intro a ha
    rw [Heap.lookup_alloc_ne h1 d' (by omega), pres1 a ha]
  · intro a d ha hl
    by_cases hah : a = h1.next
    · subst hah
      rw [Heap.lookup_alloc_self] at hl
      cases hl
      exact hd'
    · rw [Heap.lookup_alloc_ne h1 d' hah] at hl
      exact seg1 a d ha hl

/-- The `deepcopy` specification: a successful copy is well-formed, grows
the heap only upward, leaves every pre-existing address untouched, and
produces a result whose dict references all live in the fresh region. -/
theorem deepcopy_spec : ∀ (fuel : Nat),
    (∀ (h : Heap) (v v' : HVal) (h' : Heap), h.WF →
      deepcopyVal fuel h v = some (v', h') →
      CopyPost h h' ∧ HVal.refsGE h.next v' = true) ∧
    (∀ (h : Heap) (xs xs' : List HVal) (h' : Heap), h.WF →
      deepcopyList fuel h xs = some (xs', h') →
      CopyPost h h' ∧ HVal.refsGEList h.next xs' = true) ∧
    (∀ (h : Heap) (d d' : HDict) (h' : Heap), h.WF →
      deepcopyDict fuel h d = some (d', h') →
      CopyPost h h' ∧ dictRefsGE h.next d' = true) := by
  intro fuel
  induction fuel with
  | zero =>
    refine ⟨?_, ?_, ?_⟩ <;> intro h x x' h' hwf hc <;>
      simp [deepcopyVal, deepcopyList, deepcopyDict] at hc
  | succ fuel ih =>
    obtain ⟨ihv, ihl, ihd⟩ := ih
    refine ⟨?_, ?_, ?_⟩
    · intro h v v' h' hwf hc
      cases v with
      | vref a =>
        simp only [deepcopyVal] at hc
        cases hl : h.lookup a with
        | none => simp only [hl] at hc; cases hc
        | some d =>
          simp only [hl] at hc
          cases hdc : deepcopyDict fuel h d with
          | none => simp only [hdc] at hc; cases hc
          | some r =>
            obtain ⟨d', h1⟩ := r
            simp only [hdc, Heap.alloc] at hc
            obtain ⟨p1, hd'⟩ := ihd h d d' h1 hwf hdc
            obtain ⟨p2, haddr⟩ := CopyPost.alloc p1 d' hd'
            cases hc
            exact ⟨p2, by rw [HVal.refsGE]; exact decide_eq_true haddr⟩
      | vlist xs =>
        simp only [deepcopyVal] at hc
        cases hlc : deepcopyList fuel h xs with
        | none => simp only [hlc] at hc; cases hc
        | some r =>
          obtain ⟨ys, h1⟩ := r
          simp only [hlc] at hc
          obtain ⟨p1, hys⟩ := ihl h xs ys h1 hwf hlc
          cases hc
          exact ⟨p1, by rw [HVal.refsGE]; exact hys⟩
      | vstr s =>
        simp only [deepcopyVal] at hc
        cases hc
        exact ⟨CopyPost.refl_of_WF hwf, rfl⟩
      | vint n =>
        simp only [deepcopyVal] at hc
        cases hc
        exact ⟨CopyPost.refl_of_WF hwf, rfl⟩
      | vfloat q =>
        simp only [deepcopyVal] at hc
        cases hc
        exact ⟨CopyPost.refl_of_WF hwf, rfl⟩
      | vnull =>
        simp only [deepcopyVal] at hc
        cases hc
        exact ⟨CopyPost.refl_of_WF hwf, rfl⟩
    · intro h xs xs' h' hwf hc
      cases xs with
      | nil =>
        simp only [deepcopyList] at hc
        cases hc
        exact ⟨CopyPost.refl_of_WF hwf, rfl⟩
      | cons v rest =>
        simp only [deepcopyList] at hc
        cases hvc : deepcopyVal fuel h v with
        | none => simp only [hvc] at hc; cases hc
        | some r =>
          obtain ⟨w, h1⟩ := r
          simp only [hvc] at hc
          cases hrc : deepcopyList fuel h1 rest with
          | none => simp only [hrc] at hc; cases hc
          | some r2 =>
            obtain ⟨rest', h2⟩ := r2
            simp only [hrc] at hc
            obtain ⟨p1, hw⟩ := ihv h v w h1 hwf hvc
            obtain ⟨p2, hrest'⟩ := ihl h1 rest rest' h2 p1.1 hrc
            cases hc
            refine ⟨CopyPost.trans p1 p2, ?_⟩
            rw [HVal.refsGEList, Bool.and_eq_true]
            exact ⟨hw, HVal.refsGEList_mono p1.2.1 rest' hrest'⟩
    · intro h d d' h' hwf hc
      cases d with
      | nil =>
        simp only [deepcopyDict] at hc
        cases hc
        exact ⟨CopyPost.refl_of_WF hwf, rfl⟩
      | cons kv rest =>
        obtain ⟨k, v⟩ := kv
        simp only [deepcopyDict] at hc
        cases hvc : deepcopyVal fuel h v with
        | none => simp only [hvc] at hc; cases hc
        | some r =>
          obtain ⟨w, h1⟩ := r
          simp only [hvc] at hc
          cases hrc : deepcopyDict fuel h1 rest with
          | none => simp only [hrc] at hc; cases hc
          | some r2 =>
            obtain ⟨rest', h2⟩ := r2
            simp only [hrc] at hc
            obtain ⟨p1, hw⟩ := ihv h v w h1 hwf hvc
            obtain ⟨p2, hrest'⟩ := ihd h1 rest rest' h2 p1.1 hrc
            cases hc
            refine ⟨CopyPost.trans p1 p2, ?_⟩
            rw [dictRefsGE, Bool.and_eq_true]
            exact ⟨hw, dictRefsGE_mono p1.2.1 rest' hrest'⟩

/-- A deep copy establishes the patching invariant. -/
theorem PatchInv.of_copyPost {h0 h1 : Heap} (p : CopyPost h0 h1) : PatchInv h0 h1 :=
  ⟨p.2.2.1, p.2.2.2⟩

/-- Reading a field through a fresh-region reference yields a fresh-region
value. -/
theorem PatchInv.hIndex_refsGE {h0 h : Heap} (pi : PatchInv h0 h) {v : HVal}
    {k : String} {w : HVal} (hv : HVal.refsGE h0.next v = true)
    (hI : hIndex h v k = .ok w) : HVal.refsGE h0.next w = true := by
  cases v with
  | vref b =>
    simp only [hIndex] at hI
    cases hlb : h.lookup b with
    | none => simp only [hlb] at hI; cases hI
    | some d =>
      simp only [hlb] at hI
      cases hdk : List.lookup k d with
      | none => simp only [hdk] at hI; cases hI
      | some u =>
        simp only [hdk] at hI
        cases hI
        have hb : h0.next ≤ b := by simpa [HVal.refsGE] using hv
        exact refsGE_of_dict_lookup d k w (pi.2 b d hb hlb) hdk
  | vstr s => simp [hIndex] at hI
  | vint n => simp [hIndex] at hI
  | vfloat q => simp [hIndex] at hI
  | vnull => simp [hIndex] at hI
  | vlist xs => simp [hIndex] at hI

/-- Assigning a fresh-region value through a fresh-region reference keeps
the patching invariant: pre-existing addresses read back unchanged. -/
theorem PatchInv.set_preserves {h0 h h' : Heap} (pi : PatchInv h0 h) {v : HVal}
    {k : String} {w : HVal} (hv : HVal.refsGE h0.next v = true)
    (hw : HVal.refsGE h0.next w = true) (hs : hSet h v k w = .ok h') :
    PatchInv h0 h' := by
  cases v with
  | vref b =>
    simp only [hSet] at hs
    cases hlb : h.lookup b with
    | none => simp only [hlb] at hs; cases hs
    | some d =>
      simp only [hlb] at hs
      cases hs
      have hb : h0.next ≤ b := by simpa [HVal.refsGE] using hv
      constructor
      · intro a ha
        rw [Heap.lookup_setField_ne h b k w (by omega)]
        exact pi.1 a ha
      · intro a dd ha hl
        by_cases hab : a = b
        · subst hab
          rw [Heap.lookup_setField_eq, hlb] at hl
          simp only [Option.map_some'] at hl
          cases hl
          exact dictRefsGE_setKey k w hw d (pi.2 a d ha hlb)
        · rw [Heap.lookup_setField_ne h b k w hab] at hl
          exact pi.2 a dd ha hl
  | vstr s => simp [hSet] at hs
  | vint n => simp [hSet] at hs
  | vfloat q => simp [hSet] at hs
  | vnull => simp [hSet] at hs
  | vlist xs => simp [hSet] at hs

/-- Patching the ComfyUI workflow copy never touches a pre-existing heap
address: the shared template is unchanged. -/
theorem modify_comfyui_preserves (fuel : Nat) (h : Heap) (hwf : h.WF)
    (workflowAddr : Nat) (prompt imageName : String) (steps : ℤ) :
    ∀ a, a < h.next →
      (modify_comfyui_workflow_for_kontext fuel h workflowAddr prompt imageName
        steps).2.lookup a = h.lookup a := by
  intro a ha
  unfold modify_comfyui_workflow_for_kontext
  cases hdc : deepcopyVal fuel h (.vref workflowAddr) with
  | none => rfl
  | some r =>
    obtain ⟨root, h1⟩ := r
    obtain ⟨p1, hroot⟩ := (deepcopy_spec fuel).1 h (.vref workflowAddr) root h1 hwf hdc
    have pi1 : PatchInv h h1 := PatchInv.of_copyPost p1
    cases root with
    | vstr s => exact pi1.1 a ha
    | vint n => exact pi1.1 a ha
    | vfloat q => exact pi1.1 a ha
    | vnull => exact pi1.1 a ha
    | vlist xs => exact pi1.1 a ha
    | vref rootAddr =>
      cases hlr : h1.lookup rootAddr with
      | none => simp only [hlr]; exact pi1.1 a ha
      | some d =>
        simp only [hlr]
        cases hfn : findNodesByClassType h1 d none none with
        | error e => simp only [hfn]; exact pi1.1 a ha
        | ok pr =>
          obtain ⟨nimOpt, liOpt⟩ := pr
          cases nimOpt with
          | none => simp only [hfn]; exact pi1.1 a ha
          | some nimId =>
            cases liOpt with
            | none => simp only [hfn]; exact pi1.1 a ha
            | some liId =>
              simp only [hfn]
              cases hnn : hIndex h1 (.vref rootAddr) nimId with
              | error e => simp only [hnn]; exact pi1.1 a ha
              | ok nimNode =>
                simp only [hnn]
                have hnimNode : HVal.refsGE h.next nimNode = true :=
                  PatchInv.hIndex_refsGE pi1 hroot hnn
                cases hln : hIndex h1 (.vref rootAddr) liId with
                | error e => simp only [hln]; exact pi1.1 a ha
                | ok liNode =>
                  simp only [hln]
                  have hliNode : HVal.refsGE h.next liNode = true :=
                    PatchInv.hIndex_refsGE pi1 hroot hln
                  cases hii : hIn h1 "inputs" nimNode with
                  | error e => simp only [hii]; exact pi1.1 a ha
                  | ok b1 =>
                    cases b1 with
                    | false => simp only [hii]; exact pi1.1 a ha
                    | true =>
                      simp only [hii]
                      cases hni : hIndex h1 nimNode "inputs" with
                      | error e => simp only [hni]; exact pi1.1 a ha
                      | ok nimInputs =>
                        simp only [hni]
                        have hnimInputs : HVal.refsGE h.next nimInputs = true :=
                          PatchInv.hIndex_refsGE pi1 hnimNode hni
                        cases hpi : hIn h1 "prompt" nimInputs with
                        | error e => simp only [hpi]; exact pi1.1 a ha
                        | ok b2 =>
                          cases b2 with
                          | false => simp only [hpi]; exact pi1.1 a ha
                          | true =>
                            simp only [hpi]
                            cases hs1 : hSet h1 nimInputs "prompt" (.vstr prompt) with
                            | error e => simp only [hs1]; exact pi1.1 a ha
                            | ok h2 =>
                              simp only [hs1]
                              have pi2 : PatchInv h h2 :=
                                PatchInv.set_preserves pi1 hnimInputs (show HVal.refsGE h.next (HVal.vstr prompt) = true from rfl) hs1
                              cases hni2 : hIndex h2 nimNode "inputs" with
                              | error e => simp only [hni2]; exact pi2.1 a ha
                              | ok nimInputs2 =>
                                simp only [hni2]
                                have hnimInputs2 : HVal.refsGE h.next nimInputs2 = true :=
                                  PatchInv.hIndex_refsGE pi2 hnimNode hni2
                                cases hsi : hIn h2 "steps" nimInputs2 with
                                | error e => simp only [hsi]; exact pi2.1 a ha
                                | ok b3 =>
                                  cases b3 with
                                  | false => simp only [hsi]; exact pi2.1 a ha
                                  | true =>
                                    simp only [hsi]
                                    cases hs2 : hSet h2 nimInputs2 "steps" (.vint steps) with
                                    | error e => simp only [hs2]; exact pi2.1 a ha
                                    | ok h3 =>
                                      simp only [hs2]
                                      have pi3 : PatchInv h h3 :=
                                        PatchInv.set_preserves pi2 hnimInputs2 (show HVal.refsGE h.next (HVal.vint steps) = true from rfl) hs2
                                      cases hli : hIndex h3 liNode "inputs" with
                                      | error e => simp only [hli]; exact pi3.1 a ha
                                      | ok liInputs =>
                                        simp only [hli]
                                        have hliInputs : HVal.refsGE h.next liInputs = true :=
                                          PatchInv.hIndex_refsGE pi3 hliNode hli
                                        cases him : hIn h3 "image" liInputs with
                                        | error e => simp only [him]; exact pi3.1 a ha
                                        | ok b4 =>
                                          cases b4 with
                                          | false => simp only [him]; exact pi3.1 a ha
                                          | true =>
                                            simp only [him]
                                            cases hs3 : hSet h3 liInputs "image" (.vstr imageName) with
                                            | error e => simp only [hs3]; exact pi3.1 a ha
                                            | ok h4 =>
                                              simp only [hs3]
                                              have pi4 : PatchInv h h4 :=
                                                PatchInv.set_preserves pi3 hliInputs (show HVal.refsGE h.next (HVal.vstr imageName) = true from rfl) hs3
                                              exact pi4.1 a ha

/-- Patching the InvokeAI workflow copy never touches a pre-existing heap
address: the shared template is unchanged. -/
theorem modify_invokeai_preserves (fuel : Nat) (h : Heap) (hwf : h.WF)
    (workflowAddr : Nat) (prompt imageName : String) :
    ∀ a, a < h.next →
      (modify_workflow_for_kontext fuel h workflowAddr prompt
        imageName).2.lookup a = h.lookup a := by
  intro a ha
  unfold modify_workflow_for_kontext
  cases hdc : deepcopyVal fuel h (.vref workflowAddr) with
  | none => rfl
  | some r =>
    obtain ⟨root, h1⟩ := r
    obtain ⟨p1, hroot⟩ := (deepcopy_spec fuel).1 h (.vref workflowAddr) root h1 hwf hdc
    have pi1 : PatchInv h h1 := PatchInv.of_copyPost p1
    cases root with
    | vstr s => exact pi1.1 a ha
    | vint n => exact pi1.1 a ha
    | vfloat q => exact pi1.1 a ha
    | vnull => exact pi1.1 a ha
    | vlist xs => exact pi1.1 a ha
    | vref rootAddr =>
      cases hb1 : hIndex h1 (.vref rootAddr) "batch" with
      | error e => simp only [hb1]; exact pi1.1 a ha
      | ok batch =>
        simp only [hb1]
        have hbatch : HVal.refsGE h.next batch = true :=
          PatchInv.hIndex_refsGE pi1 hroot hb1
        cases hg1 : hIndex h1 batch "graph" with
        | error e => simp only [hg1]; exact pi1.1 a ha
        | ok graph =>
          simp only [hg1]
          have hgraph : HVal.refsGE h.next graph = true :=
            PatchInv.hIndex_refsGE pi1 hbatch hg1
          cases hn1 : hIndex h1 graph "nodes" with
          | error e => simp only [hn1]; exact pi1.1 a ha
          | ok nodes =>
            simp only [hn1]
            have hnodes : HVal.refsGE h.next nodes = true :=
              PatchInv.hIndex_refsGE pi1 hgraph hn1
            cases hp1 : hIndex h1 nodes "positive_prompt:0oQdkhpu9K" with
            | error e => simp only [hp1]; exact pi1.1 a ha
            | ok promptNode =>
              simp only [hp1]
              have hpromptNode : HVal.refsGE h.next promptNode = true :=
                PatchInv.hIndex_refsGE pi1 hnodes hp1
              cases hs1 : hSet h1 promptNode "value" (.vstr prompt) with
              | error e => simp only [hs1]; exact pi1.1 a ha
              | ok h2 =>
                simp only [hs1]
                have pi2 : PatchInv h h2 :=
                  PatchInv.set_preserves pi1 hpromptNode
                    (show HVal.refsGE h.next (HVal.vstr prompt) = true from rfl) hs1
                cases hb2 : hIndex h2 (.vref rootAddr) "batch" with
                | error e => simp only [hb2]; exact pi2.1 a ha
                | ok batch2 =>
                  simp only [hb2]
                  have hbatch2 : HVal.refsGE h.next batch2 = true :=
                    PatchInv.hIndex_refsGE pi2 hroot hb2
                  cases hg2 : hIndex h2 batch2 "graph" with
                  | error e => simp only [hg2]; exact pi2.1 a ha
                  | ok graph2 =>
                    simp only [hg2]
                    have hgraph2 : HVal.refsGE h.next graph2 = true :=
                      PatchInv.hIndex_refsGE pi2 hbatch2 hg2
                    cases hn2 : hIndex h2 graph2 "nodes" with
                    | error e => simp only [hn2]; exact pi2.1 a ha
                    | ok nodes2 =>
                      simp only [hn2]
                      have hnodes2 : HVal.refsGE h.next nodes2 = true :=
                        PatchInv.hIndex_refsGE pi2 hgraph2 hn2
                      cases hk2 : hIndex h2 nodes2 "flux_kontext:MsQ9ynwazR" with
                      | error e => simp only [hk2]; exact pi2.1 a ha
                      | ok kontextNode =>
                        simp only [hk2]
                        have hkontext : HVal.refsGE h.next kontextNode = true :=
                          PatchInv.hIndex_refsGE pi2 hnodes2 hk2
                        cases hi2 : hIndex h2 kontextNode "image" with
                        | error e => simp only [hi2]; exact pi2.1 a ha
                        | ok imageDict =>
                          simp only [hi2]
                          have himageDict : HVal.refsGE h.next imageDict = true :=
                            PatchInv.hIndex_refsGE pi2 hkontext hi2
                          cases hs2 : hSet h2 imageDict "image_name" (.vstr imageName) with
                          | error e => simp only [hs2]; exact pi2.1 a ha
                          | ok h3 =>
                            simp only [hs2]
                            have pi3 : PatchInv h h3 :=
                              PatchInv.set_preserves pi2 himageDict
                                (show HVal.refsGE h.next (HVal.vstr imageName) = true from rfl) hs2
                            exact pi3.1 a ha

/-- C8: for every heap state, workflow address and patch arguments, both
`modify_comfyui_workflow_for_kontext` and `modify_workflow_for_kontext`
leave every pre-existing heap address — in particular the shared
module-level template and everything it references — unchanged: all
patching lands on the per-request deep copy. -/
theorem workflow_patching_never_mutates_template :
    (∀ (fuel : Nat) (h : Heap) (workflowAddr : Nat) (prompt imageName : String)
       (steps : ℤ) (a : Nat), h.WF → a < h.next →
      (modify_comfyui_workflow_for_kontext fuel h workflowAddr prompt imageName
        steps).2.lookup a = h.lookup a) ∧
    (∀ (fuel : Nat) (h : Heap) (workflowAddr : Nat) (prompt imageName : String)
       (a : Nat), h.WF → a < h.next →
      (modify_workflow_for_kontext fuel h workflowAddr prompt
        imageName).2.lookup a = h.lookup a) :=
  ⟨fun fuel h w p i s a hwf ha => modify_comfyui_preserves fuel h hwf w p i s a ha,
   fun fuel h w p i a hwf ha => modify_invokeai_preserves fuel h hwf w p i a ha⟩

/-- C8 witness: on the concrete sample heap, patching the ComfyUI template
at address 0 and the InvokeAI template at address 5 leaves the templates'
own dicts (addresses 2 and 9, the very dicts the patches target in the
copies) reading back unchanged — and both patches do succeed. -/
theorem workflow_patching_never_mutates_template_witness :
    sampleWorkflowHeap.WF ∧
    (2 : Nat) < sampleWorkflowHeap.next ∧ (9 : Nat) < sampleWorkflowHeap.next ∧
    (modify_comfyui_workflow_for_kontext 20 sampleWorkflowHeap 0 "new prompt"
        "img.png" 30).1.isSome = true ∧
    (modify_workflow_for_kontext 20 sampleWorkflowHeap 5 "new prompt"
        "img.png").1.isSome = true ∧
    (modify_comfyui_workflow_for_kontext 20 sampleWorkflowHeap 0 "new prompt"
        "img.png" 30).2.lookup 2 = sampleWorkflowHeap.lookup 2 ∧
    (modify_workflow_for_kontext 20 sampleWorkflowHeap 5 "new prompt"
        "img.png").2.lookup 9 = sampleWorkflowHeap.lookup 9 := by
  have hwf : sampleWorkflowHeap.WF := by
    show ∀ p ∈ sampleWorkflowHeap.mem, p.1 < sampleWorkflowHeap.next
    decide
  refine ⟨hwf, by decide, by decide, by rfl, by rfl, ?_, ?_⟩
  · exact workflow_patching_never_mutates_template.1 20 sampleWorkflowHeap 0
      "new prompt" "img.png" 30 2 hwf (by decide)
  · exact workflow_patching_never_mutates_template.2 20 sampleWorkflowHeap 5
      "new prompt" "img.png" 9 hwf (by decide)
